import Mathlib

/-!
Verification of the V3 agentic workflow orchestrator (`src/agents/v3_graph.py`).

This file shallowly embeds the data model and the operations of the discovery
loop (`phase1_agent_node`, `phase1_tool_node`, `score_batch_node`,
`phase1_route`), the robust text parser (`_extract_json_array`,
`_extract_json_string_array`, `_split_batch_suggestions`), the rate-limited
gateway (`_rate_limited_gemini`), the title-suggestion step
(`decide_titles_node`) and the enrichment passes, and proves or refutes the
frozen claims about them.

Python strings are modelled as `List Char` (wrapped in `String` at the API
boundary).  Calls to the external generation service are modelled as oracle
parameters: the node functions take the text (or structured tool call) that the
service returned for each call.  Sleeping and logging are side effects with no
influence on any returned value and are omitted.  `json.loads` / `json.dumps`
are Python standard-library collaborators; they are modelled by an executable
JSON parser / serializer over an inductive `Json` type.
-/

namespace V3

/-! ## Characters that are awkward to write literally -/

def chQuote : Char := Char.ofNat 34
def chApos : Char := Char.ofNat 39
def chBackslash : Char := Char.ofNat 92
def chLBrace : Char := Char.ofNat 123
def chRBrace : Char := Char.ofNat 125
def chLBracket : Char := '['
def chRBracket : Char := ']'
def chNewline : Char := Char.ofNat 10
def chBacktick : Char := Char.ofNat 96

/-! ## Python-string primitives on `List Char` -/

/-- Whitespace for Python `str.strip()` (ASCII subset, which is what model
output contains). -/
def isPyWs (c : Char) : Bool :=
  c = ' ' ∨ c = Char.ofNat 9 ∨ c = Char.ofNat 10 ∨ c = Char.ofNat 13 ∨
  c = Char.ofNat 11 ∨ c = Char.ofNat 12

/-- Whitespace class of the regex `\s` (ASCII subset). -/
def isRegexWs (c : Char) : Bool := isPyWs c

/-- Python `s.strip()`. -/
def pyStrip (l : List Char) : List Char :=
  ((l.dropWhile isPyWs).reverse.dropWhile isPyWs).reverse

def pyStripStr (s : String) : String := String.mk (pyStrip s.toList)

/-- `pat` is a prefix of `l`. -/
def isPrefixL : List Char → List Char → Bool
  | [], _ => true
  | _ :: _, [] => false
  | p :: ps, c :: cs => p = c && isPrefixL ps cs

/-- First index `≥ 0` in `l` at which `pat` starts, if any
(Python `s.find(pat)` restricted to a found result). -/
def findIn (pat : List Char) : List Char → Option Nat
  | [] => if pat.isEmpty then some 0 else none
  | c :: cs =>
    if isPrefixL pat (c :: cs) then some 0
    else (findIn pat cs).map (· + 1)

/-- Python `s.find(pat, start)` (as an `Option`). -/
def findFrom (pat l : List Char) (start : Nat) : Option Nat :=
  (findIn pat (l.drop start)).map (· + start)

/-- Last index in `l` at which `pat` starts, if any (Python `s.rfind(pat)`). -/
def rfindIn (pat l : List Char) : Option Nat :=
  let rec go : List Char → Nat → Option Nat → Option Nat
    | [], _, best => best
    | c :: cs, i, best =>
      go cs (i + 1) (if isPrefixL pat (c :: cs) then some i else best)
  go l 0 (if pat.isEmpty then some l.length else none)

/-- Python slice `l[a:b]` for `0 ≤ a, b` (an empty list when `b ≤ a`). -/
def pySlice (l : List Char) (a b : Nat) : List Char :=
  (l.drop a).take (b - a)

def pyLower (l : List Char) : List Char := l.map Char.toLower
def pyUpper (l : List Char) : List Char := l.map Char.toUpper

/-- Python `sep.join` for `List Char` pieces. -/
def joinSep (sep : List Char) : List (List Char) → List Char
  | [] => []
  | [x] => x
  | x :: y :: rest => x ++ sep ++ joinSep sep (y :: rest)

/-- Python `text.split(sep)` for a non-empty separator: leftmost,
non-overlapping. Fueled by the length of the text. -/
def splitOnSep (sep : List Char) (l : List Char) : List (List Char) :=
  let rec go : Nat → List Char → List Char → List (List Char)
    | _, acc, [] => [acc.reverse]
    | 0, acc, rest => [acc.reverse ++ rest]
    | fuel + 1, acc, c :: cs =>
      if isPrefixL sep (c :: cs) then
        acc.reverse :: go fuel [] ((c :: cs).drop sep.length)
      else
        go fuel (c :: acc) cs
  go l.length [] l

/-! ## JSON values (model of what `json.loads` produces) -/

inductive Json where
  | null
  | bool (b : Bool)
  | num (lit : String)
  | str (s : String)
  | arr (elems : List Json)
  | obj (fields : List (String × Json))
deriving Repr, Inhabited

/-! ## A model of Python `json.loads` (standard-library collaborator).

Recursive-descent parser over `List Char`, fueled for termination.  Numbers
are kept as their lexemes (the embedded code never does arithmetic on parsed
numbers other than `int(...)` conversion, modelled separately). -/

def jsonSkipWs (l : List Char) : List Char :=
  l.dropWhile (fun c => c = ' ' ∨ c = Char.ofNat 9 ∨ c = Char.ofNat 10 ∨ c = Char.ofNat 13)

/-- Decode the body of a JSON string literal after the opening quote.
Returns the decoded characters and the input after the closing quote. -/
def jsonStringBody : Nat → List Char → Option (List Char × List Char)
  | 0, _ => none
  | _ + 1, [] => none
  | fuel + 1, c :: rest =>
    if c = chQuote then some ([], rest)
    else if c = chBackslash then
      match rest with
      | [] => none
      | e :: rest2 =>
        if e = 'u' then
          match rest2 with
          | h1 :: h2 :: h3 :: h4 :: rest3 =>
            match h1.isDigit || h1.isAlpha, h2.isDigit || h2.isAlpha,
                  h3.isDigit || h3.isAlpha, h4.isDigit || h4.isAlpha with
            | true, true, true, true =>
              let hv := fun (h : Char) =>
                if h.isDigit then h.toNat - 48
                else if h.toNat ≥ 97 then h.toNat - 87 else h.toNat - 55
              let code := ((hv h1 * 16 + hv h2) * 16 + hv h3) * 16 + hv h4
              (jsonStringBody fuel rest3).map (fun (s, r) => (Char.ofNat code :: s, r))
            | _, _, _, _ => none
          | _ => none
        else
          let dec : Option Char :=
            if e = chQuote then some chQuote
            else if e = chBackslash then some chBackslash
            else if e = '/' then some '/'
            else if e = 'n' then some (Char.ofNat 10)
            else if e = 't' then some (Char.ofNat 9)
            else if e = 'r' then some (Char.ofNat 13)
            else if e = 'b' then some (Char.ofNat 8)
            else if e = 'f' then some (Char.ofNat 12)
            else none
          match dec with
          | none => none
          | some d => (jsonStringBody fuel rest2).map (fun (s, r) => (d :: s, r))
    else
      (jsonStringBody fuel rest).map (fun (s, r) => (c :: s, r))

/-- Lex a JSON number, returning its lexeme and the rest. -/
def jsonNumberLex (l : List Char) : Option (List Char × List Char) :=
  let (sign, l1) := if l.head? = some '-' then ([('-' : Char)], l.drop 1) else ([], l)
  let intPart := l1.takeWhile Char.isDigit
  let l2 := l1.dropWhile Char.isDigit
  if intPart.isEmpty then none
  else
    let (fracPart, l3) :=
      if l2.head? = some '.' then
        let digits := (l2.drop 1).takeWhile Char.isDigit
        if digits.isEmpty then ([], l2)
        else ('.' :: digits, (l2.drop 1).dropWhile Char.isDigit)
      else ([], l2)
    let (expPart, l4) :=
      match l3.head? with
      | some c =>
        if c = 'e' ∨ c = 'E' then
          let afterE := l3.drop 1
          let (esign, rest) :=
            match afterE.head? with
            | some s => if s = '+' ∨ s = '-' then ([s], afterE.drop 1) else ([], afterE)
            | none => ([], afterE)
          let digits := rest.takeWhile Char.isDigit
          if digits.isEmpty then ([], l3)
          else (c :: (esign ++ digits), rest.dropWhile Char.isDigit)
        else ([], l3)
      | none => ([], l3)
    some (sign ++ intPart ++ fracPart ++ expPart, l4)

/-- Duplicate object keys: `json.loads` keeps the last value
(first-occurrence key order). -/
def dedupeKeysKeepLast (kvs : List (String × Json)) : List (String × Json) :=
  kvs.foldl
    (fun acc kv =>
      if acc.any (fun p => p.1 = kv.1) then
        acc.map (fun p => if p.1 = kv.1 then (p.1, kv.2) else p)
      else acc ++ [kv])
    []

mutual

def jsonParseVal : Nat → List Char → Option (Json × List Char)
  | 0, _ => none
  | fuel + 1, l =>
    match jsonSkipWs l with
    | [] => none
    | c :: rest =>
      if c = chQuote then
        (jsonStringBody (rest.length + 1) rest).map
          (fun (s, r) => (Json.str (String.mk s), r))
      else if c = chLBracket then
        match jsonSkipWs rest with
        | c2 :: rest2 =>
          if c2 = chRBracket then some (Json.arr [], rest2)
          else
            (jsonParseItems fuel (jsonSkipWs rest)).map
              (fun (xs, r) => (Json.arr xs, r))
        | [] => none
      else if c = chLBrace then
        match jsonSkipWs rest with
        | c2 :: rest2 =>
          if c2 = chRBrace then some (Json.obj [], rest2)
          else
            (jsonParseFields fuel (jsonSkipWs rest)).map
              (fun (kvs, r) => (Json.obj (dedupeKeysKeepLast kvs), r))
        | [] => none
      else if isPrefixL "true".toList (c :: rest) then
        some (Json.bool true, (c :: rest).drop 4)
      else if isPrefixL "false".toList (c :: rest) then
        some (Json.bool false, (c :: rest).drop 5)
      else if isPrefixL "null".toList (c :: rest) then
        some (Json.null, (c :: rest).drop 4)
      else
        (jsonNumberLex (c :: rest)).map
          (fun (lex, r) => (Json.num (String.mk lex), r))

/-- One or more comma-separated array items, then `]`. -/
def jsonParseItems : Nat → List Char → Option (List Json × List Char)
  | 0, _ => none
  | fuel + 1, l =>
    match jsonParseVal fuel l with
    | none => none
    | some (v, rest) =>
      match jsonSkipWs rest with
      | c :: rest2 =>
        if c = chRBracket then some ([v], rest2)
        else if c = ',' then
          (jsonParseItems fuel rest2).map (fun (xs, r) => (v :: xs, r))
        else none
      | [] => none

/-- One or more comma-separated `"key": value` fields, then `}`. -/
def jsonParseFields : Nat → List Char → Option (List (String × Json) × List Char)
  | 0, _ => none
  | fuel + 1, l =>
    match jsonSkipWs l with
    | c :: rest =>
      if c = chQuote then
        match jsonStringBody (rest.length + 1) rest with
        | none => none
        | some (k, rest2) =>
          match jsonSkipWs rest2 with
          | c2 :: rest3 =>
            if c2 = ':' then
              match jsonParseVal fuel rest3 with
              | none => none
              | some (v, rest4) =>
                match jsonSkipWs rest4 with
                | c3 :: rest5 =>
                  if c3 = chRBrace then some ([(String.mk k, v)], rest5)
                  else if c3 = ',' then
                    (jsonParseFields fuel rest5).map
                      (fun (kvs, r) => ((String.mk k, v) :: kvs, r))
                  else none
                | [] => none
            else none
          | [] => none
      else none
    | [] => none

end

/-- Model of `json.loads`: parse a complete JSON document
(trailing whitespace allowed, anything else refused). -/
def jsonLoads (s : String) : Option Json :=
  match jsonParseVal (s.length + 1) s.toList with
  | none => none
  | some (v, rest) => if jsonSkipWs rest = [] then some v else none

/-- Python truthiness of a parsed JSON value. -/
def pyTruthy : Json → Bool
  | .null => false
  | .bool b => b
  | .num lit =>
    -- numeric zero iff the mantissa has no non-zero digit
    ((lit.toList.takeWhile (fun c => c ≠ 'e' ∧ c ≠ 'E')).any
      (fun c => c.isDigit ∧ c ≠ '0'))
  | .str s => !s.isEmpty
  | .arr l => !l.isEmpty
  | .obj kvs => !kvs.isEmpty

/-- JSON string-literal quoting and escaping (used by the `json.dumps` model). -/
def jsonEscString (s : String) : String :=
  let esc := s.toList.foldr
    (fun c acc =>
      if c = chQuote then chBackslash :: chQuote :: acc
      else if c = chBackslash then chBackslash :: chBackslash :: acc
      else if c = Char.ofNat 10 then chBackslash :: 'n' :: acc
      else if c = Char.ofNat 9 then chBackslash :: 't' :: acc
      else if c = Char.ofNat 13 then chBackslash :: 'r' :: acc
      else c :: acc) []
  String.mk (chQuote :: esc ++ [chQuote])

mutual

/-- Model of `json.dumps` (Python standard library) with default separators. -/
def jsonDumps : Json → String
  | .null => "null"
  | .bool true => "true"
  | .bool false => "false"
  | .num lit => lit
  | .str s => jsonEscString s
  | .arr xs =>
    String.mk ('[' :: joinSep ", ".toList (jsonDumpsList xs) ++ [']'])
  | .obj kvs =>
    String.mk (chLBrace :: joinSep ", ".toList (jsonDumpsFields kvs) ++ [chRBrace])

def jsonDumpsList : List Json → List (List Char)
  | [] => []
  | x :: xs => (jsonDumps x).toList :: jsonDumpsList xs

def jsonDumpsFields : List (String × Json) → List (List Char)
  | [] => []
  | (k, v) :: kvs =>
    ((jsonEscString k).toList ++ ':' :: ' ' :: (jsonDumps v).toList) :: jsonDumpsFields kvs

end

/-- Python `str(x)` for a parsed JSON value (exact for scalars; containers use
their JSON rendering, which no claimed code path depends on). -/
def pyStr : Json → String
  | .null => "None"
  | .bool true => "True"
  | .bool false => "False"
  | .num lit => lit
  | .str s => s
  | .arr xs => jsonDumps (.arr xs)
  | .obj kvs => jsonDumps (.obj kvs)

/-- Python `int(x)`: `none` models a raised `ValueError`/`TypeError`.
Floats truncate toward zero; strings must be (signed) integer literals. -/
def pyInt : Json → Option Int
  | .bool b => some (if b then 1 else 0)
  | .num lit =>
    let l := lit.toList
    let (neg, l1) := if l.head? = some '-' then (true, l.drop 1) else (false, l)
    let digits := l1.takeWhile Char.isDigit
    let rest := l1.dropWhile Char.isDigit
    -- exponents are not handled by this model (unused by the source's inputs)
    if digits.isEmpty ∨ rest.any (fun c => c = 'e' ∨ c = 'E') then none
    else
      let n : Nat := digits.foldl (fun a c => a * 10 + (c.toNat - 48)) 0
      some (if neg then -(n : Int) else (n : Int))
  | .str s =>
    let l := pyStrip s.toList
    let (neg, l1) := if l.head? = some '-' then (true, l.drop 1)
                     else if l.head? = some '+' then (false, l.drop 1)
                     else (false, l)
    if l1.isEmpty ∨ l1.any (fun c => ¬ c.isDigit) then none
    else
      let n : Nat := l1.foldl (fun a c => a * 10 + (c.toNat - 48)) 0
      some (if neg then -(n : Int) else (n : Int))
  | _ => none

/-- `d.get(key)` on a parsed JSON object given as its field list. -/
def dictGet (kvs : List (String × Json)) (key : String) : Option Json :=
  (kvs.find? (fun p => p.1 = key)).map (fun p => p.2)

/-! ## `_extract_json_array` (src/agents/v3_graph.py lines 105-155) -/

/-- Strip a leading markdown code fence: the code's
`if t.startswith(backticks): t = t.split(backticks, 1)[1]; if t.startswith("json"): t = t[4:]`
(under the guard, the first fence occurrence is at index 0, so the split keeps `t[3:]`). -/
def fenceStrip (t : List Char) : List Char :=
  if isPrefixL [chBacktick, chBacktick, chBacktick] t then
    let t1 := t.drop 3
    if isPrefixL "json".toList t1 then t1.drop 4 else t1
  else t

/-- Effect of one character on the bracket-matching scan's state
(`escape`, `in_string`, `depth`), lines 120-141 of the source. -/
inductive ScanStep where
  | break1
  | cont (e : Bool) (q : Option Char) (d : Int)

def scanStep (c : Char) (e : Bool) (q : Option Char) (d : Int) : ScanStep :=
  if e then .cont false q d
  else if c = chBackslash ∧ q.isSome then .cont true q d
  else
    match q with
    | some qc => if c = qc then .cont false none d else .cont false (some qc) d
    | none =>
      if c = chQuote ∨ c = chApos then .cont false (some c) d
      else if c = chLBracket then .cont false none (d + 1)
      else if c = chRBracket then
        if d - 1 = 0 then .break1 else .cont false none (d - 1)
      else .cont false none d

/-- Scan forward from the first `[`; `some n` means the matching `]` is the
`n`-th character scanned (the code's `end - start`). -/
def bracketScanAux : List Char → Bool → Option Char → Int → Option Nat
  | [], _, _, _ => none
  | c :: rest, e, q, d =>
    match scanStep c e q d with
    | .break1 => some 1
    | .cont e2 q2 d2 => (bracketScanAux rest e2 q2 d2).map (· + 1)

/-- The tail of `_extract_json_array` applied to the extracted bracket span:
the `}↵{` comma repair (`re.sub`), `json.loads`, and the dict filter. -/
def fixCommasAux : Nat → List Char → List Char
  | 0, cs => cs
  | _ + 1, [] => []
  | fuel + 1, c :: rest =>
    if c = chRBrace then
      let w := rest.takeWhile isRegexWs
      let rest2 := rest.dropWhile isRegexWs
      match rest2 with
      | d :: tail =>
        if d = chLBrace ∧ w.contains chNewline then
          chRBrace :: ',' :: chLBrace :: fixCommasAux fuel tail
        else c :: fixCommasAux fuel rest
      | [] => c :: fixCommasAux fuel rest
    else c :: fixCommasAux fuel rest

/-- `re.sub(regex for rbrace-ws-newline-ws-lbrace, "},{", raw)`: the pattern
matches a `}` followed by a whitespace run containing a newline and then `{`. -/
def fixCommas (cs : List Char) : List Char := fixCommasAux cs.length cs

def jsonArrayPost (raw : List Char) : List (List (String × Json)) :=
  match jsonLoads (String.mk (fixCommas raw)) with
  | some (Json.arr xs) =>
    xs.filterMap (fun x => match x with | Json.obj kvs => some kvs | _ => none)
  | _ => []

/-- `_extract_json_array(text)`: parse a JSON array from model output,
tolerating markdown fences and minor malformations. -/
def extract_json_array (text : String) : List (List (String × Json)) :=
  let t := fenceStrip (pyStrip text.toList)
  match findIn [chLBracket] t with
  | none => []
  | some start =>
    let endPos : Nat :=
      match bracketScanAux (t.drop start) false none 0 with
      | some n => start + n
      | none =>
        match rfindIn [chRBracket] t with
        | some r => r + 1
        | none => 0
    if endPos ≤ start then [] else jsonArrayPost (pySlice t start endPos)

/-! ## `_extract_json_string_array` (lines 158-174) -/

/-- `_extract_json_string_array(text)`: parse a JSON array of scalars,
stringify and trim each truthy element, cap at 5. -/
def extract_json_string_array (text : String) : List String :=
  let t := fenceStrip (pyStrip text.toList)
  match findIn [chLBracket] t with
  | none => []
  | some start =>
    let e : Nat :=
      match rfindIn [chRBracket] t with
      | some r => r + 1
      | none => 0
    if e ≤ start then []
    else
      match jsonLoads (String.mk (pySlice t start e)) with
      | some (Json.arr xs) =>
        ((xs.filter pyTruthy).map (fun x => pyStripStr (pyStr x))).take 5
      | _ => []

/-- The same text wrapped in a markdown ```json code fence. -/
def fenceWrap (t : String) : String :=
  String.mk ("```json\n".toList ++ t.toList ++ "\n```".toList)

/-- `t` is (shaped like) a raw JSON array: after stripping it starts with `[`
and the source's bracket scan finds the matching `]` exactly at its end. -/
def rawJsonArrayShaped (t : String) : Prop :=
  (pyStrip t.toList).head? = some chLBracket ∧
  bracketScanAux (pyStrip t.toList) false none 0 = some (pyStrip t.toList).length

instance (t : String) : Decidable (rawJsonArrayShaped t) := by
  unfold rawJsonArrayShaped; infer_instance

/-! ## `_split_batch_suggestions` (lines 605-677) -/

/-- Python truthiness of `any(parts)` for a list of strings. -/
def anyNonempty (parts : List (List Char)) : Bool :=
  parts.any (fun p => !p.isEmpty)

/-- The inner `try_markers` loop: for each marker `i`, find it in the
uppercased text, cut up to the next marker's position (searched from 0) or the
text end, strip, and keep chunks longer than 20 characters. -/
def tryMarkersGo (text tu : List Char) : Nat → List (List Char) →
    List (List Char) → List (List Char)
  | _, [], parts => parts
  | i, m :: rest, parts =>
    let parts2 :=
      match findIn (pyUpper m) tu with
      | none => parts
      | some s0 =>
        let start := s0 + m.length
        let endPos :=
          match rest.head? with
          | some m2 =>
            match findIn (pyUpper m2) tu with
            | some e => e
            | none => text.length
          | none => text.length
        let chunk := pyStrip (pySlice text start endPos)
        if chunk.length > 20 then parts.set i chunk else parts
    tryMarkersGo text tu (i + 1) rest parts2

def jobMarkers (headMark : List Char) (count : Nat) : List (List Char) :=
  (List.range count).map (fun i => headMark ++ (toString (i + 1)).toList)

/-- The lenient patterns for item `n`:
`JOB n:`, `JOB n\n`, `JOB n `, `**JOB n**`, `**Job n**`, `Job n:`, `Job n\n`. -/
def lenientPatterns (n : Nat) : List (List Char) :=
  let ds := (toString n).toList
  [ "JOB ".toList ++ ds ++ [':'],
    "JOB ".toList ++ ds ++ [chNewline],
    "JOB ".toList ++ ds ++ [' '],
    "**JOB ".toList ++ ds ++ "**".toList,
    "**Job ".toList ++ ds ++ "**".toList,
    "Job ".toList ++ ds ++ [':'],
    "Job ".toList ++ ds ++ [chNewline] ]

/-- The `for j in range(i + 1, count)` scan for the next `JOB j+1` marker
after `start`; defaults to the text length. -/
def lenientNextEnd (tu text : List Char) (start : Nat) : List Nat → Nat
  | [] => text.length
  | j :: rest =>
    match findFrom (pyUpper ("JOB ".toList ++ (toString (j + 1)).toList)) tu start with
    | some pos => pos
    | none => lenientNextEnd tu text start rest

/-- One iteration of the lenient marker loop (the `for pat in patterns` body,
which breaks at the first pattern found in the text). -/
def lenientTryPats (text tu : List Char) (count i : Nat)
    (parts : List (List Char)) : List (List Char) :=
  match (lenientPatterns (i + 1)).find? (fun pat => (findIn (pyUpper pat) tu).isSome) with
  | none => parts
  | some pat =>
    match findIn (pyUpper pat) tu with
    | none => parts
    | some s0 =>
      let start := s0 + pat.length
      let endPos := lenientNextEnd tu text start ((List.range count).drop (i + 1))
      let chunk := pyStrip (pySlice text start endPos)
      if chunk.length > 20 then parts.set i chunk else parts

/-- The final fallback: whole text for `count == 1`, else blank-line-separated
paragraphs assigned in order, folding the excess into the last slot. -/
def splitFallback (text : List Char) (count : Nat)
    (parts : List (List Char)) : List (List Char) :=
  let stripped := pyStrip text
  if stripped.isEmpty then parts
  else if count = 1 then parts.set 0 stripped
  else
    let chunks := ((splitOnSep [chNewline, chNewline] stripped).map pyStrip).filter
      (fun c => !c.isEmpty)
    if chunks.isEmpty then parts.set 0 stripped
    else
      let parts2 := (List.range (min count chunks.length)).foldl
        (fun ps i => if (chunks.getD i []).length > 20 then ps.set i (chunks.getD i []) else ps)
        parts
      if chunks.length > count then
        parts2.set (count - 1) (joinSep [chNewline, chNewline] (chunks.drop (count - 1)))
      else parts2

/-- `_split_batch_suggestions(text, count)`. -/
def split_batch_suggestions (textS : String) (count : Nat) : List String :=
  let text := textS.toList
  let tu := pyUpper text
  let parts0 := List.replicate count ([] : List Char)
  let m1 := tryMarkersGo text tu 0 (jobMarkers "## JOB ".toList count) parts0
  if anyNonempty m1 then m1.map String.mk
  else
    let m2 := tryMarkersGo text tu 0 (jobMarkers "### JOB ".toList count) parts0
    if anyNonempty m2 then m2.map String.mk
    else
      let m3 := (List.range count).foldl
        (fun ps i => lenientTryPats text tu count i ps) parts0
      if anyNonempty m3 then m3.map String.mk
      else (splitFallback text count parts0).map String.mk

/-! ## `_rate_limited_gemini` (lines 69-102)

The cooldown sleeps, the 429 backoff sleeps and the model-tier fallback after
the second failed attempt affect only timing and which model serves an attempt,
never the value returned; they are not represented.  Each attempt's outcome at
the generation service is an oracle. -/

inductive GenOutcome where
  | success (text : Option String)
  | failure (msg : String)
deriving Repr, Inhabited

def isFailureOutcome : GenOutcome → Prop
  | .success _ => False
  | .failure _ => True

instance (o : GenOutcome) : Decidable (isFailureOutcome o) := by
  cases o <;> simp [isFailureOutcome] <;> infer_instance

/-- The `for attempt in range(max_attempts)` loop: a successful call returns
`r.text or ""`; any exception continues to the next attempt (with sleeps);
falling off the loop returns `""`. -/
def rate_limited_gemini_loop (outcomes : Nat → GenOutcome) : Nat → Nat → String
  | _, 0 => ""
  | attempt, remaining + 1 =>
    match outcomes attempt with
    | .success t => t.getD ""
    | .failure _ => rate_limited_gemini_loop outcomes (attempt + 1) remaining

/-- `_rate_limited_gemini(prompt, max_attempts=3, ...)`, as a function of the
service outcome of each attempt. -/
def rate_limited_gemini (outcomes : Nat → GenOutcome)
    (max_attempts : Nat := 3) : String :=
  rate_limited_gemini_loop outcomes 0 max_attempts

/-! ## V3 constants (lines 25-29) -/

def V3_SCORE_THRESHOLD : Int := 85
def V3_TARGET_QUALIFYING_JOBS : Nat := 10
def V3_PHASE1_MAX_ROUNDS : Nat := 15
def BATCH_SIZE : Nat := 3
def RELEVANCE_BATCH_SIZE : Nat := 6

/-! ## Job listings and the discovery-loop state -/

/-- A job-listing dict with the fields the claims depend on.  `score`,
`future_score`, `improvement_potential` and the three suggestion/summary
fields are absent (`none`) until some node assigns them. -/
structure Job where
  title : String := "N/A"
  company : String := "N/A"
  url : String := ""
  description : String := ""
  score : Option Int := none
  resume_suggestions : Option String := none
  project_suggestions : Option String := none
  future_score : Option Int := none
  improvement_potential : Option Int := none
  brief_relevance_summary : Option String := none
deriving Repr, DecidableEq, Inhabited

/-- A Search Attempt log entry (`phase1_tried_pairs` element). -/
structure TriedPair where
  title : String
  page : Int
  jobs_returned : Option Int := none
  qualifying_added : Option Int := none
deriving Repr, DecidableEq, Inhabited

/-- `_tried_pairs_set` (lines 320-331): the set of `(stripped title, page)`
with empty titles dropped.  (Entries always carry an `int` page, so the
`int(p.get("page", 0))` conversion is the identity here.) -/
def tried_pairs_set (tried : List TriedPair) : List (String × Int) :=
  tried.filterMap (fun p =>
    if pyStripStr p.title = "" then none else some (pyStripStr p.title, p.page))

/-- `_get_next_title_page` (lines 334-349): first untried `(title, page)` in
title-list order then ascending page `0..max_page_per_title`. -/
def get_next_title_page (suggested : List String) (tried : List TriedPair)
    (maxPage : Nat := 5) : Option (String × Int) :=
  let triedS := tried_pairs_set tried
  let titles := if suggested.isEmpty then ["Software Engineer"] else suggested
  titles.findSome? (fun title =>
    let t := pyStripStr title
    if t = "" then none
    else ((List.range (maxPage + 1)).find?
        (fun pg => !(triedS.contains (t, (pg : Int))))).map
      (fun pg => (t, (pg : Int))))

/-- The tool call stored in `phase1_last_tool_call`: the agent node only ever
stores `{"name": "scrape_linkedin", "args": {"job_title": <str>, "page": <int>}}`. -/
structure ToolCall where
  name : String
  job_title : String
  page : Int
deriving Repr, DecidableEq, Inhabited

/-- A function call in the generation service's response, with its arguments
already passed through `_normalize_function_call_args` / the dict re-extraction
(lines 177-199 and 420-430): a plain mapping, possibly empty when every
adapter shape failed. -/
structure FunctionCall where
  name : String
  args : List (String × Json)
deriving Repr, Inhabited

/-- Outcome of the agent node's `generate_content` call: a transport failure
(`except` at line 409) or a response whose parts contain an optional first
function call. -/
inductive AgentResp where
  | failure
  | reply (fc : Option FunctionCall)
deriving Repr, Inhabited

/-! ## `phase1_agent_node` (lines 352-448), decision part

The prompt build and logging have no effect on the returned update; the
returned value is the `phase1_last_tool_call` update. -/

/-- The `(job_title, page)` the agent node assembles from the tool-call
arguments before the already-tried safety net (lines 431-438):
`raw_title = args.get("job_title") or first_title`,
`job_title = str(raw_title).strip() if raw_title else first_title`, the
membership fix to `first_title`, and `page = int(args.get("page", 0))`
with `0` on `ValueError`/`TypeError`. -/
def agentAssembledPair (suggested : List String)
    (args : List (String × Json)) : String × Int :=
  let first_title := suggested.headD "Software Engineer"
  let job_title :=
    match dictGet args "job_title" with
    | some v =>
      if pyTruthy v then pyStripStr (pyStr v)
      else if first_title = "" then first_title else pyStripStr first_title
    | none => if first_title = "" then first_title else pyStripStr first_title
  let job_title :=
    if !suggested.isEmpty ∧ !suggested.contains job_title then first_title
    else job_title
  let page : Int :=
    match dictGet args "page" with
    | none => 0
    | some v => (pyInt v).getD 0
  (job_title, page)

def phase1_agent_node (suggested : List String) (qualifying : List Job)
    (tried : List TriedPair) (resp : AgentResp) : Option ToolCall :=
  let tried_set := tried_pairs_set tried
  if qualifying.length ≥ V3_TARGET_QUALIFYING_JOBS then none
  else
    match get_next_title_page suggested tried with
    | none => none
    | some next_pair =>
      match resp with
      | .failure => none
      | .reply none => none
      | .reply (some fc) =>
        if fc.name = "scrape_linkedin" then
          let assembled := agentAssembledPair suggested fc.args
          -- safety net: override an already-tried pair deterministically
          let pair :=
            if tried_set.contains assembled then next_pair
            else assembled
          some ⟨"scrape_linkedin", pair.1, pair.2⟩
        else none

/-! ## `phase1_tool_node` (lines 451-486) -/

/-- `_scrape_linkedin_tool` (lines 274-297): default the title, then call the
Search Service collaborator (an oracle); the per-listing field mapping is
carried by the oracle's `Job` values. -/
def scrape_linkedin_tool (scrape : String → Int → List Job)
    (job_title : String) (page : Int) : List Job :=
  let title := if pyStripStr job_title = "" then "Software Engineer"
               else pyStripStr job_title
  scrape title page

/-- The state-update produced by `phase1_tool_node`.  The early-return branch
does not mention `seen_urls` in its partial update, so the merged state keeps
the previous value; the embedding returns the merged fields. -/
structure ToolResult where
  current_batch : List Job
  seen_urls : List String
  phase1_last_tool_call : Option ToolCall
  phase1_tried_pairs : List TriedPair
deriving Repr, DecidableEq, Inhabited

def phase1_tool_node (scrape : String → Int → List Job)
    (suggested : List String) (seen : List String) (tried : List TriedPair)
    (tool : Option ToolCall) : ToolResult :=
  match tool with
  | none => ⟨[], seen, none, tried⟩
  | some tc =>
    if tc.name ≠ "scrape_linkedin" then ⟨[], seen, none, tried⟩
    else
      let jt0 := pyStripStr tc.job_title
      let job_title :=
        if jt0 = "" ∨ (!suggested.isEmpty ∧ !suggested.contains jt0) then
          suggested.headD "Software Engineer"
        else jt0
      let page := tc.page
      let batch := scrape_linkedin_tool scrape job_title page
      let acc := batch.foldl
        (fun (acc : List String × List Job) j =>
          if j.url ≠ "" ∧ !acc.1.contains j.url then
            (acc.1 ++ [j.url], acc.2 ++ [j])
          else acc)
        (seen, [])
      ⟨acc.2, acc.1, none,
        tried ++ [{ title := job_title, page := page,
                    jobs_returned := some (acc.2.length : Int) }]⟩

/-! ## `score_batch_node` (lines 489-542) -/

/-- `item.get("idx")`: Python's `.get` returns `None` both for a missing key
and for a JSON `null` value, and the nodes guard with `if idx is not None`. -/
def pyGetIdx (item : List (String × Json)) : Option Json :=
  match dictGet item "idx" with
  | none => none
  | some Json.null => none
  | some v => some v

/-- Build the `score_map` dict from the scoring response: each item with a
non-null `idx` whose `int(idx)` and `int(score-or-0)` conversions succeed
contributes a clamped entry (later entries overwrite earlier ones). -/
def scoreMapOf (respText : String) : List (Int × Int) :=
  if pyStripStr respText = "" then []
  else
    (extract_json_array respText).foldl
      (fun m s =>
        match pyGetIdx s with
        | none => m
        | some vIdx =>
          let scv := match dictGet s "score" with
            | none => some 0
            | some v => pyInt v
          match pyInt vIdx, scv with
          | some i, some sc => m ++ [(i, max 0 (min 100 sc))]
          | _, _ => m)
      []

/-- Dict lookup in the accumulated `score_map` (last write wins). -/
def scoreLookup (m : List (Int × Int)) (i : Int) : Option Int :=
  (m.reverse.find? (fun p => p.1 = i)).map (fun p => p.2)

/-- The batch after `j["score"] = score_map.get(i, 70)` for each job. -/
def scoredBatchOf (batch : List Job) (respText : String) : List Job :=
  (batch.enum).map (fun p =>
    {p.2 with score := some ((scoreLookup (scoreMapOf respText) (p.1 : Int)).getD 70)})

def jobQualifiesB (j : Job) : Bool :=
  match j.score with
  | some s => V3_SCORE_THRESHOLD ≤ s
  | none => false

structure ScoreResult where
  qualifying_jobs : List Job
  current_batch : List Job
  phase1_rounds : Nat
  phase1_tried_pairs : List TriedPair
deriving Repr, DecidableEq, Inhabited

/-- `tried_pairs[-1]["qualifying_added"] = added`: rewrite the last entry's
annotation, leaving every `(title, page)` unchanged. -/
def annotateLast (added : Int) : List TriedPair → List TriedPair
  | [] => []
  | [p] => [{p with qualifying_added := some added}]
  | p :: q :: rest => p :: annotateLast added (q :: rest)

def score_batch_node (batch qualifying : List Job) (tried : List TriedPair)
    (rounds : Nat) (respText : String) : ScoreResult :=
  if batch.isEmpty then ⟨qualifying, [], rounds, tried⟩
  else
    let scored := scoredBatchOf batch respText
    let appended := scored.filter jobQualifiesB
    let qualifying2 := qualifying ++ appended
    let tried2 :=
      if tried.isEmpty then tried
      else annotateLast (appended.length : Int) tried
    ⟨qualifying2, [], rounds + 1, tried2⟩

/-! ## `phase1_route` (lines 545-553) -/

inductive Route where
  | phase1_tools
  | resume_modifier_agent
  | phase1_agent
deriving Repr, DecidableEq, Inhabited

def phase1_route (qualifying : List Job) (rounds : Nat)
    (lastTool : Option ToolCall) : Route :=
  if qualifying.length ≥ V3_TARGET_QUALIFYING_JOBS then .resume_modifier_agent
  else if rounds ≥ V3_PHASE1_MAX_ROUNDS then .resume_modifier_agent
  else
    match lastTool with
    | some _ => .phase1_tools
    | none => .phase1_agent

/-! ## The phase-1 subgraph (build_v3_workflow, lines 895-923)

`decide_titles → phase1_agent`; the conditional edge after `phase1_agent` is
`phase1_route`; `phase1_tools → score_batch → phase1_agent` are fixed edges;
`resume_modifier_agent` and everything after it is `enrichment` here. -/

structure P1State where
  suggested_titles : List String
  qualifying_jobs : List Job
  seen_urls : List String
  current_batch : List Job
  phase1_tried_pairs : List TriedPair
  phase1_rounds : Nat
  phase1_last_tool_call : Option ToolCall
deriving Repr, DecidableEq, Inhabited

inductive GNode where
  | phase1_agent
  | phase1_tools
  | score_batch
  | enrichment
deriving Repr, DecidableEq, Inhabited

/-- Oracle for one run: the agent-node response to its `k`-th LLM call, the
Search Service, and the text of the `k`-th scoring call. -/
structure Phase1Oracle where
  agent : Nat → AgentResp
  scrape : String → Int → List Job
  score : Nat → String

/-- One LangGraph superstep of the phase-1 subgraph: run the node, merge its
partial update, then follow the (conditional) edge.  The counters index the
agent-visit and score-visit oracles. -/
def stepP1 (o : Phase1Oracle) :
    GNode × P1State × Nat × Nat → GNode × P1State × Nat × Nat
  | (.phase1_agent, s, ka, ks) =>
    let tc := phase1_agent_node s.suggested_titles s.qualifying_jobs
      s.phase1_tried_pairs (o.agent ka)
    let s2 := { s with phase1_last_tool_call := tc }
    let nxt :=
      match phase1_route s2.qualifying_jobs s2.phase1_rounds s2.phase1_last_tool_call with
      | .phase1_tools => GNode.phase1_tools
      | .resume_modifier_agent => GNode.enrichment
      | .phase1_agent => GNode.phase1_agent
    (nxt, s2, ka + 1, ks)
  | (.phase1_tools, s, ka, ks) =>
    let r := phase1_tool_node o.scrape s.suggested_titles s.seen_urls
      s.phase1_tried_pairs s.phase1_last_tool_call
    (GNode.score_batch,
      { s with current_batch := r.current_batch, seen_urls := r.seen_urls,
               phase1_last_tool_call := r.phase1_last_tool_call,
               phase1_tried_pairs := r.phase1_tried_pairs }, ka, ks)
  | (.score_batch, s, ka, ks) =>
    let r := score_batch_node s.current_batch s.qualifying_jobs
      s.phase1_tried_pairs s.phase1_rounds (o.score ks)
    (GNode.phase1_agent,
      { s with qualifying_jobs := r.qualifying_jobs,
               current_batch := r.current_batch,
               phase1_rounds := r.phase1_rounds,
               phase1_tried_pairs := r.phase1_tried_pairs }, ka, ks + 1)
  | (.enrichment, s, ka, ks) => (GNode.enrichment, s, ka, ks)

def runP1 (o : Phase1Oracle) : Nat → GNode × P1State × Nat × Nat →
    GNode × P1State × Nat × Nat
  | 0, c => c
  | n + 1, c => runP1 o n (stepP1 o c)

/-- The state entering the loop right after `decide_titles` ran with the given
suggested titles. -/
def initialP1 (suggested : List String) : P1State :=
  { suggested_titles := suggested, qualifying_jobs := [], seen_urls := [],
    current_batch := [], phase1_tried_pairs := [], phase1_rounds := 0,
    phase1_last_tool_call := none }

/-! ## `decide_titles_node` (lines 215-267) -/

/-- The titles extracted from the model text before the hard-coded fallback:
`_extract_json_string_array`, then the dict (`title`/`name`) path, then the
raw `json.loads(text[find:rfind+1])` path. -/
def decide_titles_parsed (max_titles : Nat) (text : String) : List String :=
  let titles1 := extract_json_string_array text
  if !titles1.isEmpty ∨ pyStripStr text = "" then titles1
  else
    let arr := extract_json_array text
    let fromDicts := arr.foldl
      (fun acc x =>
        match dictGet x "title" with
        | some v => acc ++ [pyStripStr (pyStr v)]
        | none =>
          match dictGet x "name" with
          | some v => acc ++ [pyStripStr (pyStr v)]
          | none => acc)
      []
    if !fromDicts.isEmpty ∨ !text.toList.contains '[' then fromDicts
    else
      let tl := text.toList
      match findIn [chLBracket] tl with
      | none => fromDicts
      | some st =>
        let en := match rfindIn [chRBracket] tl with
          | some r => r + 1
          | none => 0
        match jsonLoads (String.mk (pySlice tl st en)) with
        | some (Json.arr xs) =>
          ((xs.filter pyTruthy).map (fun p => pyStripStr (pyStr p))).take max_titles
        | _ => fromDicts

/-- `decide_titles_node`, as a function of the job type and the model text.
Returns the `suggested_titles` update. -/
def decide_titles_node (job_type_raw : String) (text : String) : List String :=
  -- (state.get("job_type") or "full_time").strip().lower()
  let raw := if job_type_raw = "" then "full_time" else job_type_raw
  let job_type := String.mk (pyLower (pyStrip raw.toList))
  let max_titles : Nat :=
    if job_type = "full_time" then 3
    else if job_type = "internship" then 3
    else 4
  let titles := decide_titles_parsed max_titles text
  let titles :=
    if titles.isEmpty then
      if job_type = "full_time" then ["Software Engineer"]
      else ["Software Engineer Intern"]
    else titles
  (titles.filter (fun t => t ≠ "")).take max_titles

/-- A title contains "Intern" (and hence also covers "Internship"),
case-insensitively. -/
def containsIntern (t : String) : Bool :=
  (findIn "intern".toList (pyLower t.toList)).isSome

/-! ## Enrichment passes (lines 680-704, 774-827, 861-888)

Each pass walks the qualifying jobs in fixed-size batches; the model text for
the `k`-th batch is an oracle.  A `true` first component models an uncaught
exception (the node dies mid-way; earlier mutations persist). -/

/-- Order-preserving batched map (`for batch_start in range(0, len(jobs), n)`). -/
def batchFold (batchSize : Nat) (f : Nat → List Job → List Job) :
    Nat → Nat → List Job → List Job
  | 0, _, jobs => jobs
  | fuel + 1, k, jobs =>
    if jobs.isEmpty then jobs
    else f k (jobs.take batchSize) ++
      batchFold batchSize f fuel (k + 1) (jobs.drop batchSize)

/-- Crash-carrying batched map: a crashed batch keeps its partial updates and
stops the node, leaving the remaining jobs untouched. -/
def batchFoldE (batchSize : Nat) (f : Nat → List Job → Bool × List Job) :
    Nat → Nat → List Job → Bool × List Job
  | 0, _, jobs => (false, jobs)
  | fuel + 1, k, jobs =>
    if jobs.isEmpty then (false, jobs)
    else
      let r := f k (jobs.take batchSize)
      if r.1 then (true, r.2 ++ jobs.drop batchSize)
      else
        let rest := batchFoldE batchSize f fuel (k + 1) (jobs.drop batchSize)
        (rest.1, r.2 ++ rest.2)

/-- One résumé-suggestion batch (lines 692-702). -/
def resumeBatch (text : String) (batch : List Job) : List Job :=
  if pyStripStr text = "" then
    batch.map (fun j => {j with resume_suggestions := some "No suggestions generated."})
  else
    let parts := split_batch_suggestions text batch.length
    (batch.enum).map (fun p =>
      let chosen :=
        if p.1 < parts.length ∧ parts.getD p.1 "" ≠ "" then parts.getD p.1 "" else ""
      let s := pyStripStr chosen
      let out := if s = "" then "No suggestions generated." else s
      {p.2 with resume_suggestions := some out})

/-- `resume_modifier_agent_node` (lines 680-704). -/
def resume_modifier_agent_node (texts : Nat → String) (jobs : List Job) :
    List Job :=
  batchFold BATCH_SIZE (fun k batch => resumeBatch (texts k) batch)
    jobs.length 0 jobs

/-- `json.dumps(projects) if isinstance(projects, list) else str(projects)`
for `projects = item.get("projects", [])`. -/
def projectsString (item : List (String × Json)) : String :=
  match dictGet item "projects" with
  | none => jsonDumps (Json.arr [])
  | some (Json.arr xs) => jsonDumps (Json.arr xs)
  | some other => pyStr other

/-- The `for item in items` loop of `project_proposer_node`: a failing
`int(idx)` raises inside the per-batch `try`, aborting the rest of the batch
but keeping earlier updates. -/
def projectApplyItems (batch : List Job) :
    List (List (String × Json)) → List Job
  | [] => batch
  | item :: rest =>
    match pyGetIdx item with
    | none => projectApplyItems batch rest
    | some vIdx =>
      match pyInt vIdx with
      | none => batch
      | some i =>
        if 0 ≤ i ∧ i < (batch.length : Int) then
          match batch.get? i.toNat with
          | some j =>
            projectApplyItems
              (batch.set i.toNat
                (let v := projectsString item
                 {j with project_suggestions := some v})) rest
          | none => projectApplyItems batch rest
        else projectApplyItems batch rest

def projectBatch (text : String) (batch : List Job) : List Job :=
  if pyStripStr text = "" then batch
  else projectApplyItems batch (extract_json_array text)

/-- `project_proposer_node` (lines 774-803): `setdefault` the placeholder,
then apply each batch's parsed items. -/
def project_proposer_node (texts : Nat → String) (jobs : List Job) :
    List Job :=
  let jobs1 := jobs.map (fun j =>
    let v := j.project_suggestions.getD "No project suggestions generated."
    {j with project_suggestions := some v})
  batchFold BATCH_SIZE (fun k batch => projectBatch (texts k) batch)
    jobs1.length 0 jobs1

/-- The `for item in ...` loop of `future_scores_node`: `int(idx)` / `int(fs)`
failures are uncaught there and kill the node (first component `true`). -/
def futureApplyItems (jobs : List Job) :
    List (List (String × Json)) → Bool × List Job
  | [] => (false, jobs)
  | item :: rest =>
    match pyGetIdx item with
    | none => futureApplyItems jobs rest
    | some vIdx =>
      match pyInt vIdx with
      | none => (true, jobs)
      | some i =>
        if 0 ≤ i ∧ i < (jobs.length : Int) then
          match pyInt (match dictGet item "future_score" with
            | none => Json.num "0"
            | some v => v) with
          | none => (true, jobs)
          | some fsv =>
            match jobs.get? i.toNat with
            | some j =>
              futureApplyItems
                (jobs.set i.toNat
                  (let nf := max 0 (min 100 fsv)
                   {j with future_score := some nf,
                           improvement_potential := some (nf - j.score.getD 50)}))
                rest
            | none => futureApplyItems jobs rest
        else futureApplyItems jobs rest

/-- `future_scores_node` (lines 806-827): `setdefault` the `current+10`
default (capped at 100) and its potential, then apply the parsed items.
The `update_relevant_jobs` report write is a pure side effect. -/
def future_scores_node (text : String) (jobs : List Job) : Bool × List Job :=
  let jobs1 := jobs.map (fun j =>
    let cur := j.score.getD 50
    let fs := j.future_score.getD (min 100 (cur + 10))
    { j with future_score := some fs,
             improvement_potential := some (j.improvement_potential.getD (fs - cur)) })
  if pyStripStr text = "" then (false, jobs1)
  else futureApplyItems jobs1 (extract_json_array text)

/-- `(item.get(key) or "").strip()`: `none` models the `AttributeError` raised
when the value is truthy but not a string. -/
def pyStrOrEmpty (v : Option Json) : Option String :=
  match v with
  | none => some ""
  | some j =>
    if pyTruthy j then
      match j with
      | Json.str s => some (pyStripStr s)
      | _ => none
    else some ""

/-- The two-line summary composed from the `working` / `not_working`
sentences: `"\n\n".join(parts) if parts else ""`. -/
def relevanceSummaryText (working not_working : String) : String :=
  let parts :=
    (if working ≠ "" then ["**What is working:** " ++ working] else []) ++
    (if not_working ≠ "" then ["**What is not working:** " ++ not_working] else [])
  if parts.isEmpty then "" else String.intercalate "\n\n" parts

/-- The `for item in ...` loop of `relevance_summary_node` (lines 875-886). -/
def relevanceApplyItems (batch : List Job) :
    List (List (String × Json)) → Bool × List Job
  | [] => (false, batch)
  | item :: rest =>
    match pyStrOrEmpty (dictGet item "working"),
          pyStrOrEmpty (dictGet item "not_working") with
    | some working, some not_working =>
      match pyGetIdx item with
      | none => relevanceApplyItems batch rest
      | some vIdx =>
        match pyInt vIdx with
        | none => (true, batch)
        | some i =>
          if 0 ≤ i ∧ i < (batch.length : Int) then
            match batch.get? i.toNat with
            | some j =>
              relevanceApplyItems
                (batch.set i.toNat
                  (let v := relevanceSummaryText working not_working
                   {j with brief_relevance_summary := some v}))
                rest
            | none => relevanceApplyItems batch rest
          else relevanceApplyItems batch rest
    | _, _ => (true, batch)

/-- One relevance batch: empty model text is skipped (`continue`). -/
def relevanceBatch (text : String) (batch : List Job) : Bool × List Job :=
  if pyStripStr text = "" then (false, batch)
  else relevanceApplyItems batch (extract_json_array text)

/-- `relevance_summary_node` (lines 861-888). -/
def relevance_summary_node (texts : Nat → String) (jobs : List Job) :
    Bool × List Job :=
  batchFoldE RELEVANCE_BATCH_SIZE (fun k batch => relevanceBatch (texts k) batch)
    jobs.length 0 jobs

/-! ## Predicates, oracles and states used by the theorems -/

/-- The `(title, page)` pairs of the Search Attempt log, in order. -/
def pairsOf (tried : List TriedPair) : List (String × Int) :=
  tried.map (fun p => (p.title, p.page))

/-- Titles as `decide_titles_node` produces them when non-empty: stripped and
non-empty. -/
def goodTitles (suggested : List String) : Prop :=
  suggested ≠ [] ∧ ∀ t ∈ suggested, pyStripStr t = t ∧ t ≠ ""

instance (l : List String) : Decidable (goodTitles l) := by
  unfold goodTitles; infer_instance

/-- Log entries as `phase1_tool_node` appends them: stripped non-empty title. -/
def goodEntries (tried : List TriedPair) : Prop :=
  ∀ p ∈ tried, pyStripStr p.title = p.title ∧ p.title ≠ ""

/-- The pending tool call is one the agent node can emit under `goodTitles`:
a `scrape_linkedin` call whose title is a suggested title and whose
`(title, page)` is not yet in the Search Attempt log. -/
def goodTool (suggested : List String) (tried : List TriedPair) :
    Option ToolCall → Prop
  | none => True
  | some tc =>
    tc.name = "scrape_linkedin" →
      suggested.contains tc.job_title = true ∧
      (tried_pairs_set tried).contains (tc.job_title, tc.page) = false

/-- The loop invariant for the duplicate-free Search Attempt log. -/
def P1Inv (s : P1State) : Prop :=
  (pairsOf s.phase1_tried_pairs).Nodup ∧
  goodEntries s.phase1_tried_pairs ∧
  goodTool s.suggested_titles s.phase1_tried_pairs s.phase1_last_tool_call

/-- An oracle on which the agent always picks a valid tool call with default
arguments, and the search service always returns no listings. -/
def spinOracle : Phase1Oracle :=
  ⟨fun _ => .reply (some ⟨"scrape_linkedin", []⟩), fun _ _ => [], fun _ => ""⟩

/-- The state the run started from `initialP1 ["A"]` under `spinOracle`
reaches after 6 rounds: every `("A", page)` pair tried, zero listings, and the
round counter still 0 (it only advances on non-empty batches). -/
def exhaustedState : P1State :=
  { suggested_titles := ["A"], qualifying_jobs := [], seen_urls := [],
    current_batch := [],
    phase1_tried_pairs :=
      [⟨"A", 0, some 0, none⟩, ⟨"A", 1, some 0, none⟩, ⟨"A", 2, some 0, none⟩,
       ⟨"A", 3, some 0, none⟩, ⟨"A", 4, some 0, none⟩, ⟨"A", 5, some 0, none⟩],
    phase1_rounds := 0, phase1_last_tool_call := none }

/-- Oracle for the duplicate-pair run: the first agent call returns a
`scrape_linkedin` call with no usable arguments, the second one a call whose
`job_title` is the whitespace string; the search service returns nothing. -/
def dupOracle : Phase1Oracle :=
  ⟨fun k =>
      if k = 0 then .reply (some ⟨"scrape_linkedin", []⟩)
      else .reply (some ⟨"scrape_linkedin",
        [("job_title", Json.str " "), ("page", Json.num "0")]⟩),
    fun _ _ => [], fun _ => ""⟩

/-- A job's score is present and at least the qualifying threshold. -/
def scoreAtLeastThreshold (j : Job) : Prop :=
  ∃ s, j.score = some s ∧ V3_SCORE_THRESHOLD ≤ s

/-! # Theorems -/

/-! ## Generic facts about the string primitives -/

lemma dropWhile_eq_self_of_head (p : Char → Bool) (l : List Char)
    (h : ∀ c, l.head? = some c → p c = false) : l.dropWhile p = l := by
  cases l with
  | nil => rfl
  | cons a l => simp [List.dropWhile_cons, h a rfl]

lemma pyStrip_eq_self (l : List Char)
    (h1 : ∀ c, l.head? = some c → isPyWs c = false)
    (h2 : ∀ c, l.getLast? = some c → isPyWs c = false) : pyStrip l = l := by
  unfold pyStrip
  rw [dropWhile_eq_self_of_head _ _ h1]
  rw [dropWhile_eq_self_of_head _ _
    (by intro c hc; exact h2 c (by rwa [List.head?_reverse] at hc))]
  exact l.reverse_reverse

/-- A list is some all-whitespace prefix, its strip, and an all-whitespace
suffix. -/
lemma pyStrip_decomp (l : List Char) :
    ∃ pre post, l = pre ++ pyStrip l ++ post ∧
      (∀ c ∈ pre, isPyWs c = true) ∧ (∀ c ∈ post, isPyWs c = true) := by
  refine ⟨l.takeWhile isPyWs,
    ((l.dropWhile isPyWs).reverse.takeWhile isPyWs).reverse, ?_, ?_, ?_⟩
  · have h2 : l.dropWhile isPyWs =
        pyStrip l ++ ((l.dropWhile isPyWs).reverse.takeWhile isPyWs).reverse := by
      unfold pyStrip
      conv_lhs => rw [← (l.dropWhile isPyWs).reverse_reverse]
      rw [← List.takeWhile_append_dropWhile (p := isPyWs)
        (l := (l.dropWhile isPyWs).reverse)]
      rw [List.reverse_append]
      rw [List.takeWhile_append_dropWhile]
    rw [List.append_assoc, ← h2, List.takeWhile_append_dropWhile]
  · intro c hc; exact List.mem_takeWhile_imp hc
  · intro c hc
    rw [List.mem_reverse] at hc
    exact List.mem_takeWhile_imp hc

lemma findIn_single_append (c0 : Char) (pre rest : List Char) (h : c0 ∉ pre) :
    findIn [c0] (pre ++ c0 :: rest) = some pre.length := by
  induction pre with
  | nil => simp [findIn, isPrefixL]
  | cons a pre ih =>
    have hne : c0 ≠ a := fun hh => h (by rw [hh]; exact List.mem_cons_self a pre)
    have hpre : isPrefixL [c0] (a :: (pre ++ c0 :: rest)) = false := by
      simp [isPrefixL, hne]
    have ih2 := ih (fun hm => h (List.mem_cons_of_mem a hm))
    simp only [List.cons_append, findIn, List.append_eq, hpre, Bool.false_eq_true,
      if_false, ih2, Option.map_some', List.length_cons]

/-- The bracket scan only looks at the characters it consumes. -/
lemma bracketScanAux_append (l : List Char) :
    ∀ (rest : List Char) (e : Bool) (q : Option Char) (d : Int) (n : Nat),
      bracketScanAux l e q d = some n →
      bracketScanAux (l ++ rest) e q d = some n := by
  induction l with
  | nil => intro rest e q d n h; simp [bracketScanAux] at h
  | cons c cs ih =>
    intro rest e q d n h
    rw [List.cons_append]
    unfold bracketScanAux at h ⊢
    cases hs : scanStep c e q d with
    | break1 => rw [hs] at h; exact h
    | cont e2 q2 d2 =>
      rw [hs] at h
      have h2 : Option.map (fun x => x + 1) (bracketScanAux cs e2 q2 d2) = some n := h
      show Option.map (fun x => x + 1) (bracketScanAux (cs ++ rest) e2 q2 d2) = some n
      simp only [Option.map_eq_some'] at h2
      obtain ⟨m, hm, rfl⟩ := h2
      simp only [ih rest e2 q2 d2 m hm, Option.map_some']

/-! ## Claim C7: fence invariance of `_extract_json_array` -/

lemma extract_json_array_of_shaped (t : String) (h : rawJsonArrayShaped t) :
    extract_json_array t = jsonArrayPost (pyStrip t.toList) := by
  obtain ⟨h1, h2⟩ := h
  cases hsc : pyStrip t.toList with
  | nil => rw [hsc] at h1; simp at h1
  | cons a s' =>
    rw [hsc] at h1 h2
    simp only [List.head?_cons, Option.some.injEq] at h1
    subst h1
    have hfence : fenceStrip (chLBracket :: s') = chLBracket :: s' := by
      have hbt : (chBacktick = chLBracket) = False := by
        simp only [eq_iff_iff, iff_false]; decide
      simp [fenceStrip, isPrefixL, hbt]
    have hfind : findIn [chLBracket] (chLBracket :: s') = some 0 := by
      simp [findIn, isPrefixL]
    simp only [extract_json_array, hsc, hfence, hfind, List.drop_zero, h2,
      List.length_cons]
    rw [if_neg (by omega : ¬ (0 + (s'.length + 1) ≤ 0))]
    congr 1
    simp [pySlice, List.take_succ_cons, List.take_length]

lemma extract_json_array_fenceWrap_of_shaped (t : String)
    (h : rawJsonArrayShaped t) :
    extract_json_array (fenceWrap t) = jsonArrayPost (pyStrip t.toList) := by
  obtain ⟨h1, h2⟩ := h
  obtain ⟨pre, post, hdecomp, hpre, hpost⟩ := pyStrip_decomp t.toList
  cases hsc : pyStrip t.toList with
  | nil => rw [hsc] at h1; simp at h1
  | cons a s' =>
    rw [hsc] at h1 h2 hdecomp
    simp only [List.head?_cons, Option.some.injEq] at h1
    subst h1
    have hwl : (fenceWrap t).toList =
        chBacktick :: chBacktick :: chBacktick :: 'j' :: 's' :: 'o' :: 'n' ::
          chNewline ::
          (t.toList ++ (chNewline :: chBacktick :: chBacktick :: [chBacktick])) := by
      show ("```json\n".toList ++ t.toList ++ "\n```".toList) = _
      have hA : ("```json\n".toList : List Char) =
          [chBacktick, chBacktick, chBacktick, 'j', 's', 'o', 'n', chNewline] := by
        decide
      have hB : ("\n```".toList : List Char) =
          [chNewline, chBacktick, chBacktick, chBacktick] := by decide
      rw [hA, hB, List.append_assoc]
      simp [List.cons_append]
    have hstrip : pyStrip (fenceWrap t).toList = (fenceWrap t).toList := by
      apply pyStrip_eq_self
      · intro c hc
        rw [hwl] at hc
        simp only [List.head?_cons, Option.some.injEq] at hc
        subst hc; decide
      · intro c hc
        rw [hwl] at hc
        have hlast : (chBacktick :: chBacktick :: chBacktick :: 'j' :: 's' :: 'o' ::
            'n' :: chNewline ::
            (t.toList ++ (chNewline :: chBacktick :: chBacktick :: [chBacktick]))).getLast? =
            some chBacktick := by
          show ((chBacktick :: chBacktick :: chBacktick :: 'j' :: 's' :: 'o' :: 'n' ::
            chNewline :: t.toList) ++
            (chNewline :: chBacktick :: chBacktick :: [chBacktick])).getLast? = _
          rw [List.getLast?_append_of_ne_nil _ (by simp)]
          rfl
        rw [hlast] at hc
        simp only [Option.some.injEq] at hc
        subst hc; decide
    have hjson : ("json".toList : List Char) = ['j', 's', 'o', 'n'] := by decide
    have hfs : fenceStrip (chBacktick :: chBacktick :: chBacktick :: 'j' :: 's' ::
        'o' :: 'n' :: chNewline ::
        (t.toList ++ (chNewline :: chBacktick :: chBacktick :: [chBacktick]))) =
        chNewline ::
          (t.toList ++ (chNewline :: chBacktick :: chBacktick :: [chBacktick])) := by
      simp [fenceStrip, isPrefixL, hjson]
    have hL : chNewline ::
        (t.toList ++ (chNewline :: chBacktick :: chBacktick :: [chBacktick])) =
        (chNewline :: pre) ++ chLBracket ::
          (s' ++ (post ++ (chNewline :: chBacktick :: chBacktick :: [chBacktick]))) := by
      rw [hdecomp]
      simp [List.append_assoc]
    have hnotin : chLBracket ∉ chNewline :: pre := by
      intro hmem
      rcases List.mem_cons.mp hmem with hx | hx
      · exact absurd hx (by decide)
      · exact absurd (hpre _ hx) (by decide)
    have hfind := findIn_single_append chLBracket (chNewline :: pre)
      (s' ++ (post ++ (chNewline :: chBacktick :: chBacktick :: [chBacktick]))) hnotin
    have hdrop : ((chNewline :: pre) ++ chLBracket ::
        (s' ++ (post ++ (chNewline :: chBacktick :: chBacktick :: [chBacktick])))).drop
          (chNewline :: pre).length =
        (chLBracket :: s') ++
          (post ++ (chNewline :: chBacktick :: chBacktick :: [chBacktick])) := by
      rw [List.drop_left]
      simp [List.cons_append]
    have hscan := bracketScanAux_append (chLBracket :: s')
      (post ++ (chNewline :: chBacktick :: chBacktick :: [chBacktick])) false none 0
      (s'.length + 1) (by simpa using h2)
    have hslice : pySlice ((chNewline :: pre) ++ chLBracket ::
        (s' ++ (post ++ (chNewline :: chBacktick :: chBacktick :: [chBacktick]))))
        (chNewline :: pre).length ((chNewline :: pre).length + (s'.length + 1)) =
        chLBracket :: s' := by
      unfold pySlice
      rw [hdrop]
      have harith : (chNewline :: pre).length + (s'.length + 1) -
          (chNewline :: pre).length = s'.length + 1 := by omega
      rw [harith]
      exact List.take_left' (by simp)
    rw [hwl] at hstrip
    simp only [extract_json_array]
    rw [hwl, hstrip, hfs, hL, hfind]
    simp only [hdrop, hscan, hslice]
    rw [if_neg (by omega)]

/-- Claim C7: for every text that is a raw JSON array, `_extract_json_array`
returns the identical structure whether the text is passed raw or wrapped in a
```json code fence. -/
theorem C7_extract_json_array_fence_invariant (t : String)
    (h : rawJsonArrayShaped t) :
    extract_json_array (fenceWrap t) = extract_json_array t := by
  rw [extract_json_array_of_shaped t h, extract_json_array_fenceWrap_of_shaped t h]

theorem C7_witness :
    rawJsonArrayShaped "[\x7b\"idx\": 0, \"score\": 92\x7d]" ∧
      extract_json_array (fenceWrap "[\x7b\"idx\": 0, \"score\": 92\x7d]") =
        extract_json_array "[\x7b\"idx\": 0, \"score\": 92\x7d]" :=
  ⟨by decide, C7_extract_json_array_fence_invariant "[\x7b\"idx\": 0, \"score\": 92\x7d]" (by decide)⟩

/-! ## Claim C5 -/

theorem C5_gateway_exhaustion_empty (outcomes : Nat → GenOutcome)
    (h : ∀ a, a < 3 → isFailureOutcome (outcomes a)) :
    rate_limited_gemini outcomes 3 = "" := by
  have h0 := h 0 (by omega)
  have h1 := h 1 (by omega)
  have h2 := h 2 (by omega)
  cases hh0 : outcomes 0 with
  | success t => rw [hh0] at h0; exact h0.elim
  | failure m0 =>
    cases hh1 : outcomes 1 with
    | success t => rw [hh1] at h1; exact h1.elim
    | failure m1 =>
      cases hh2 : outcomes 2 with
      | success t => rw [hh2] at h2; exact h2.elim
      | failure m2 =>
        simp [rate_limited_gemini, rate_limited_gemini_loop, hh0, hh1, hh2]

theorem C5_gateway_witness :
    (∀ a, a < 3 → isFailureOutcome ((fun _ => GenOutcome.failure "429 quota") a)) ∧
      rate_limited_gemini (fun _ => GenOutcome.failure "429 quota") 3 = "" :=
  ⟨fun _ _ => trivial,
    C5_gateway_exhaustion_empty (fun _ => GenOutcome.failure "429 quota")
      (fun _ _ => trivial)⟩

/-! ## Claim C6 -/

lemma length_foldl_preserve {α : Type} (f : List (List Char) → α → List (List Char))
    (h : ∀ ps a, (f ps a).length = ps.length) :
    ∀ (l : List α) (ps : List (List Char)), (l.foldl f ps).length = ps.length := by
  intro l
  induction l with
  | nil => intro ps; rfl
  | cons a l ih => intro ps; rw [List.foldl_cons, ih, h]

lemma length_tryMarkersGo (text tu : List Char) :
    ∀ (ms : List (List Char)) (i : Nat) (parts : List (List Char)),
      (tryMarkersGo text tu i ms parts).length = parts.length := by
  intro ms
  induction ms with
  | nil => intro i parts; rfl
  | cons m rest ih =>
    intro i parts
    unfold tryMarkersGo
    rw [ih]
    repeat' split
    all_goals simp [apply_ite List.length, List.length_set]

lemma length_lenientTryPats (text tu : List Char) (count i : Nat)
    (parts : List (List Char)) :
    (lenientTryPats text tu count i parts).length = parts.length := by
  unfold lenientTryPats
  repeat' split
  all_goals simp [apply_ite List.length, List.length_set]

lemma length_splitFallback (text : List Char) (count : Nat)
    (parts : List (List Char)) :
    (splitFallback text count parts).length = parts.length := by
  have hf : ∀ (chunks : List (List Char)) (l : List Nat) (ps : List (List Char)),
      (l.foldl (fun ps i =>
        if (chunks.getD i []).length > 20 then ps.set i (chunks.getD i []) else ps) ps).length
        = ps.length := by
    intro chunks l ps
    apply length_foldl_preserve
    intro ps i
    simp [apply_ite List.length, List.length_set]
  simp only [splitFallback]
  repeat' split
  · rfl
  · simp [List.length_set]
  · simp [List.length_set]
  · rw [List.length_set]; exact hf _ _ _
  · exact hf _ _ _

/-- Claim C6: `_split_batch_suggestions(text, n)` returns exactly `n` strings
for every text and every `n ≥ 1`. -/
theorem C6_split_batch_suggestions_length (t : String) (n : Nat) (h : 1 ≤ n) :
    (split_batch_suggestions t n).length = n := by
  simp only [split_batch_suggestions]
  have hfold := length_foldl_preserve
    (fun ps i => lenientTryPats t.toList (pyUpper t.toList) n i ps)
    (fun ps i => length_lenientTryPats t.toList (pyUpper t.toList) n i ps)
    (List.range n) (List.replicate n [])
  repeat' split
  · simp [length_tryMarkersGo]
  · simp [length_tryMarkersGo]
  · simpa using hfold
  · simp [length_splitFallback]

theorem C6_witness : 1 ≤ 3 ∧ (split_batch_suggestions "" 3).length = 3 :=
  ⟨by omega, C6_split_batch_suggestions_length "" 3 (by omega)⟩

/-! ## Claim C10 -/

theorem C10_tool_node_noop (scrape : String → Int → List Job)
    (suggested : List String) (seen : List String) (tried : List TriedPair)
    (tool : Option ToolCall)
    (h : tool = none ∨ ∃ tc, tool = some tc ∧ tc.name ≠ "scrape_linkedin") :
    phase1_tool_node scrape suggested seen tried tool = ⟨[], seen, none, tried⟩ := by
  rcases h with rfl | ⟨tc, rfl, hname⟩
  · rfl
  · simp [phase1_tool_node, hname]

theorem C10_witness :
    ((some ⟨"other_tool", "T", 1⟩ : Option ToolCall) = none ∨
      ∃ tc, (some (⟨"other_tool", "T", 1⟩ : ToolCall)) = some tc ∧
        tc.name ≠ "scrape_linkedin") ∧
    phase1_tool_node (fun _ _ => [{ title := "X" }]) ["A"] ["u"]
      [⟨"A", 0, none, none⟩] (some ⟨"other_tool", "T", 1⟩) =
      ⟨[], ["u"], none, [⟨"A", 0, none, none⟩]⟩ :=
  ⟨Or.inr ⟨_, rfl, by decide⟩,
    C10_tool_node_noop _ _ _ _ _ (Or.inr ⟨_, rfl, by decide⟩)⟩


/-! ## Claim C8 -/

theorem C8_counterexample :
    decide_titles_node "internship" "[\"Plumber\"]" = ["Plumber"] ∧
      containsIntern "Plumber" = false := by
  constructor
  · rfl
  · rfl

lemma decide_titles_internship_fallback (text : String)
    (h : decide_titles_parsed 3 text = []) :
    decide_titles_node "internship" text = ["Software Engineer Intern"] := by
  have hjt : String.mk (pyLower (pyStrip ("internship" : String).toList)) =
      "internship" := by decide
  simp only [decide_titles_node]
  rw [if_neg (by decide : ¬ ("internship" : String) = "")]
  rw [hjt]
  rw [if_neg (by decide : ¬ ("internship" : String) = "full_time")]
  rw [if_pos (by decide : ("internship" : String) = "internship")]
  rw [h]
  decide

theorem C8_amended_intern_only_in_fallback (text : String)
    (h : decide_titles_parsed 3 text = []) :
    ∀ ti ∈ decide_titles_node "internship" text, containsIntern ti = true := by
  rw [decide_titles_internship_fallback text h]
  intro ti hti
  simp only [List.mem_singleton] at hti
  subst hti
  decide

theorem C8_witness :
    decide_titles_parsed 3 "" = [] ∧
      ∀ ti ∈ decide_titles_node "internship" "", containsIntern ti = true :=
  ⟨by decide, C8_amended_intern_only_in_fallback "" (by decide)⟩

/-! ## Claim C9 -/

theorem C9_counterexample :
    relevance_summary_node (fun _ => "[\x7b\"idx\": 0\x7d]") [{ title := "J" }] =
      (false, [{ title := "J", brief_relevance_summary := some "" }]) := by
  rfl

theorem C9_amended_assigns_empty_string (batch : List Job)
    (item : List (String × Json)) (vIdx : Json) (i : Int) (j : Job)
    (hw : dictGet item "working" = none)
    (hnw : dictGet item "not_working" = none)
    (hidx : dictGet item "idx" = some vIdx)
    (hi : pyInt vIdx = some i)
    (hbound : 0 ≤ i ∧ i < (batch.length : Int))
    (hj : batch.get? i.toNat = some j) :
    relevanceApplyItems batch [item] =
      (false, batch.set i.toNat {j with brief_relevance_summary := some ""}) := by
  simp only [relevanceApplyItems, hw, hnw, pyStrOrEmpty, pyGetIdx, hidx]
  cases vIdx with
  | null => simp [pyInt] at hi
  | bool b =>
    simp only [hi, if_pos hbound, hj]
    simp [relevanceApplyItems, relevanceSummaryText]
  | num lit =>
    simp only [hi, if_pos hbound, hj]
    simp [relevanceApplyItems, relevanceSummaryText]
  | str s =>
    simp only [hi, if_pos hbound, hj]
    simp [relevanceApplyItems, relevanceSummaryText]
  | arr xs => simp [pyInt] at hi
  | obj kvs => simp [pyInt] at hi

theorem C9_witness :
    dictGet [("idx", Json.num "0")] "working" = none ∧
    dictGet [("idx", Json.num "0")] "not_working" = none ∧
    dictGet [("idx", Json.num "0")] "idx" = some (Json.num "0") ∧
    pyInt (Json.num "0") = some 0 ∧
    (0 ≤ (0 : Int) ∧ (0 : Int) < ([{ title := "J" }] : List Job).length) ∧
    ([{ title := "J" }] : List Job).get? (0 : Int).toNat = some { title := "J" } ∧
    relevanceApplyItems [{ title := "J" }] [[("idx", Json.num "0")]] =
      (false, ([{ title := "J" }] : List Job).set (0 : Int).toNat
        { title := "J", brief_relevance_summary := some "" }) :=
  ⟨rfl, rfl, rfl, by decide, by decide, by decide,
    C9_amended_assigns_empty_string [{ title := "J" }] [("idx", Json.num "0")]
      (Json.num "0") 0 { title := "J" } rfl rfl rfl
      (by decide) (by decide) (by decide)⟩


/-! ## Claim C3 -/

lemma exists_of_findSomeEq {α β : Type} (f : α → Option β) :
    ∀ (l : List α) (b : β), l.findSome? f = some b → ∃ a ∈ l, f a = some b := by
  intro l
  induction l with
  | nil => intro b h; simp [List.findSome?] at h
  | cons a l ih =>
    intro b h
    rw [List.findSome?_cons] at h
    cases hf : f a with
    | some c =>
      simp only [hf] at h
      exact ⟨a, by simp, hf.trans h⟩
    | none =>
      simp only [hf] at h
      obtain ⟨x, hx, hfx⟩ := ih b h
      exact ⟨x, by simp [hx], hfx⟩

/-- The pair `_get_next_title_page` returns is never in the tried set. -/
lemma get_next_title_page_not_tried (suggested : List String)
    (tried : List TriedPair) (t : String) (p : Int)
    (h : get_next_title_page suggested tried = some (t, p)) :
    (tried_pairs_set tried).contains (t, p) = false := by
  unfold get_next_title_page at h
  obtain ⟨title, _htm, hf⟩ := exists_of_findSomeEq _ _ _ h
  by_cases hs : pyStripStr title = ""
  · simp [hs] at hf
  · rw [if_neg hs] at hf
    simp only [Option.map_eq_some'] at hf
    obtain ⟨pg, hfind, heq⟩ := hf
    have hpred := List.find?_some hfind
    cases heq
    simpa using hpred

theorem C3_counterexample :
    (["A"] : List String).contains "Z" = false ∧
    phase1_agent_node ["A"] [] [] (.reply (some ⟨"scrape_linkedin",
      [("job_title", Json.str "Z"), ("page", Json.num "3")]⟩)) =
      some ⟨"scrape_linkedin", "A", 3⟩ ∧
    get_next_title_page ["A"] [] = some ("A", 0) ∧
    ((3 : Int) ≠ 0) := by
  refine ⟨by decide, by decide, by decide, by decide⟩

theorem C3_amended_untried_and_override (suggested : List String)
    (qualifying : List Job) (tried : List TriedPair) (fc : FunctionCall)
    (tc : ToolCall)
    (h : phase1_agent_node suggested qualifying tried (.reply (some fc)) = some tc) :
    (tried_pairs_set tried).contains (tc.job_title, tc.page) = false ∧
    ((tried_pairs_set tried).contains (agentAssembledPair suggested fc.args) = true →
      get_next_title_page suggested tried = some (tc.job_title, tc.page)) := by
  simp only [phase1_agent_node] at h
  split at h
  · cases h
  · cases hnp : get_next_title_page suggested tried with
    | none => rw [hnp] at h; exact Option.noConfusion h
    | some np =>
      simp only [hnp] at h
      by_cases hname : fc.name = "scrape_linkedin"
      · rw [if_pos hname] at h
        by_cases htried :
            (tried_pairs_set tried).contains (agentAssembledPair suggested fc.args) = true
        · rw [if_pos htried] at h
          obtain rfl : ToolCall.mk "scrape_linkedin" np.1 np.2 = tc := by
            injection h
          refine ⟨?_, fun _ => ?_⟩
          · exact get_next_title_page_not_tried suggested tried np.1 np.2 (by simpa using hnp)
          · simpa using hnp
        · rw [if_neg htried] at h
          obtain rfl : ToolCall.mk "scrape_linkedin"
              (agentAssembledPair suggested fc.args).1
              (agentAssembledPair suggested fc.args).2 = tc := by
            injection h
          refine ⟨?_, fun hcontra => absurd hcontra htried⟩
          simp only [Bool.not_eq_true] at htried
          exact htried
      · rw [if_neg hname] at h; cases h

theorem C3_witness :
    phase1_agent_node ["A"] [] [⟨"A", 0, some 0, none⟩] (.reply (some
      ⟨"scrape_linkedin", [("job_title", Json.str "A"), ("page", Json.num "0")]⟩)) =
      some ⟨"scrape_linkedin", "A", 1⟩ ∧
    ((tried_pairs_set [⟨"A", 0, some 0, none⟩]).contains ("A", (1 : Int)) = false ∧
      ((tried_pairs_set [⟨"A", 0, some 0, none⟩]).contains
          (agentAssembledPair ["A"] [("job_title", Json.str "A"), ("page", Json.num "0")]) = true →
        get_next_title_page ["A"] [⟨"A", 0, some 0, none⟩] = some ("A", 1))) :=
  ⟨by decide,
    C3_amended_untried_and_override ["A"] [] [⟨"A", 0, some 0, none⟩]
      ⟨"scrape_linkedin", [("job_title", Json.str "A"), ("page", Json.num "0")]⟩
      ⟨"scrape_linkedin", "A", 1⟩ (by decide)⟩


/-! ## Claim C1 -/

theorem C1_route_spins_after_pair_exhaustion :
    runP1 spinOracle 18 (GNode.phase1_agent, initialP1 ["A"], 0, 0) =
      (GNode.phase1_agent, exhaustedState, 6, 6) ∧
    (∀ n k, runP1 spinOracle n (GNode.phase1_agent, exhaustedState, k, 6) =
      (GNode.phase1_agent, exhaustedState, k + n, 6)) ∧
    phase1_route exhaustedState.qualifying_jobs exhaustedState.phase1_rounds
      exhaustedState.phase1_last_tool_call = Route.phase1_agent ∧
    Route.phase1_agent ≠ Route.resume_modifier_agent := by
  refine ⟨by rfl, ?_, by rfl, by decide⟩
  intro n
  induction n with
  | zero => intro k; simp [runP1]
  | succ m ih =>
    intro k
    have hstep : stepP1 spinOracle (GNode.phase1_agent, exhaustedState, k, 6) =
        (GNode.phase1_agent, exhaustedState, k + 1, 6) := rfl
    rw [runP1, hstep, ih]
    have : k + 1 + m = k + (m + 1) := by omega
    rw [this]

/-! ## Claim C2 -/

lemma containsStr_iff {l : List String} {x : String} :
    l.contains x = true ↔ x ∈ l := List.elem_iff

lemma containsPair_iff {l : List (String × Int)} {x : String × Int} :
    l.contains x = true ↔ x ∈ l := List.elem_iff

lemma mem_tried_pairs_set_of (tried : List TriedPair) (p : TriedPair)
    (hm : p ∈ tried) (hs : pyStripStr p.title = p.title) (hne : p.title ≠ "") :
    (p.title, p.page) ∈ tried_pairs_set tried := by
  unfold tried_pairs_set
  apply List.mem_filterMap.mpr
  refine ⟨p, hm, ?_⟩
  simp only [hs, if_neg hne]

lemma get_next_title_page_spec (suggested : List String) (tried : List TriedPair)
    (t : String) (p : Int) (hne : suggested ≠ [])
    (h : get_next_title_page suggested tried = some (t, p)) :
    ∃ t0 ∈ suggested, t = pyStripStr t0 ∧ t ≠ "" := by
  unfold get_next_title_page at h
  have hemp : suggested.isEmpty = false := by
    cases suggested with
    | nil => exact absurd rfl hne
    | cons a l => rfl
  rw [hemp] at h
  simp only [Bool.false_eq_true, if_false] at h
  obtain ⟨t0, ht0, hf⟩ := exists_of_findSomeEq _ _ _ h
  by_cases hs : pyStripStr t0 = ""
  · rw [if_pos hs] at hf; exact Option.noConfusion hf
  · rw [if_neg hs] at hf
    simp only [Option.map_eq_some'] at hf
    obtain ⟨pg, _hfind, heq⟩ := hf
    rw [Prod.mk.injEq] at heq
    refine ⟨t0, ht0, heq.1.symm, ?_⟩
    rw [← heq.1]
    exact hs

lemma get_next_title_page_fst (suggested : List String) (tried : List TriedPair)
    (t : String) (p : Int) (hne : suggested ≠ [])
    (hstr : ∀ x ∈ suggested, pyStripStr x = x ∧ x ≠ "")
    (h : get_next_title_page suggested tried = some (t, p)) :
    suggested.contains t = true := by
  obtain ⟨t0, ht0, heq, _⟩ := get_next_title_page_spec suggested tried t p hne h
  rw [heq, (hstr t0 ht0).1]
  exact containsStr_iff.mpr ht0

lemma headD_mem_fix (suggested : List String) (jt0 : String)
    (hne : suggested ≠ []) :
    (if !suggested.isEmpty ∧ !suggested.contains jt0 then
      suggested.headD "Software Engineer" else jt0) ∈ suggested := by
  cases suggested with
  | nil => exact absurd rfl hne
  | cons a rest =>
    by_cases hc : (a :: rest).contains jt0 = true
    · rw [if_neg ?hcond]
      case hcond =>
        intro hand
        rw [hc] at hand
        exact Bool.noConfusion hand.2
      exact containsStr_iff.mp hc
    · have hc' : (a :: rest).contains jt0 = false := by
        cases hb : (a :: rest).contains jt0 with
        | false => rfl
        | true => exact absurd hb hc
      rw [if_pos ⟨rfl, by rw [hc']; decide⟩]
      exact List.mem_cons_self a rest

lemma agentAssembledPair_fst_mem (suggested : List String)
    (args : List (String × Json)) (hne : suggested ≠ []) :
    (agentAssembledPair suggested args).1 ∈ suggested := by
  unfold agentAssembledPair
  exact headD_mem_fix suggested _ hne

lemma phase1_agent_node_goodTool (suggested : List String) (qualifying : List Job)
    (tried : List TriedPair) (resp : AgentResp) (hts : goodTitles suggested) :
    goodTool suggested tried (phase1_agent_node suggested qualifying tried resp) := by
  obtain ⟨hne, hstr⟩ := hts
  unfold phase1_agent_node
  by_cases hq : qualifying.length ≥ V3_TARGET_QUALIFYING_JOBS
  · rw [if_pos hq]; trivial
  · rw [if_neg hq]
    cases hnp : get_next_title_page suggested tried with
    | none => simp only [hnp]; trivial
    | some np =>
      simp only [hnp]
      cases resp with
      | failure => trivial
      | reply ofc =>
        cases ofc with
        | none => trivial
        | some fc =>
          show goodTool suggested tried
            (if fc.name = "scrape_linkedin" then
              some ⟨"scrape_linkedin",
                (if (tried_pairs_set tried).contains
                    (agentAssembledPair suggested fc.args) = true
                  then np else agentAssembledPair suggested fc.args).1,
                (if (tried_pairs_set tried).contains
                    (agentAssembledPair suggested fc.args) = true
                  then np else agentAssembledPair suggested fc.args).2⟩
            else none)
          by_cases hname : fc.name = "scrape_linkedin"
          · rw [if_pos hname]
            intro _
            by_cases htried : (tried_pairs_set tried).contains
                (agentAssembledPair suggested fc.args) = true
            · rw [if_pos htried]
              obtain ⟨t0, p0⟩ := np
              refine ⟨get_next_title_page_fst suggested tried t0 p0 hne hstr hnp, ?_⟩
              exact get_next_title_page_not_tried suggested tried t0 p0 hnp
            · rw [if_neg htried]
              refine ⟨?_, ?_⟩
              · exact containsStr_iff.mpr (agentAssembledPair_fst_mem suggested fc.args hne)
              · simpa [Bool.not_eq_true] using htried
          · rw [if_neg hname]; trivial

lemma phase1_tool_node_tried (scrape : String → Int → List Job)
    (suggested : List String) (seen : List String) (tried : List TriedPair)
    (tool : Option ToolCall) (hts : goodTitles suggested)
    (hgt : goodTool suggested tried tool)
    (hnd : (pairsOf tried).Nodup) (hge : goodEntries tried) :
    (pairsOf (phase1_tool_node scrape suggested seen tried tool).phase1_tried_pairs).Nodup ∧
    goodEntries (phase1_tool_node scrape suggested seen tried tool).phase1_tried_pairs ∧
    (phase1_tool_node scrape suggested seen tried tool).phase1_last_tool_call = none := by
  obtain ⟨hne, hstr⟩ := hts
  cases tool with
  | none => exact ⟨hnd, hge, rfl⟩
  | some tc =>
    by_cases hname : tc.name = "scrape_linkedin"
    · have hgt2 := hgt hname
      obtain ⟨hmem, huntried⟩ := hgt2
      have hmem2 : tc.job_title ∈ suggested := containsStr_iff.mp hmem
      have hstr2 := hstr tc.job_title hmem2
      simp only [phase1_tool_node]
      rw [if_neg (by simp [hname])]
      have hjt0 : pyStripStr tc.job_title = tc.job_title := hstr2.1
      rw [hjt0]
      have hcond : ¬ (tc.job_title = "" ∨
          ((!suggested.isEmpty) = true ∧ (!suggested.contains tc.job_title) = true)) := by
        push_neg
        refine ⟨hstr2.2, fun _ => ?_⟩
        rw [hmem]
        decide
      rw [if_neg hcond]
      refine ⟨?_, ?_, rfl⟩
      · show (pairsOf (tried ++ [_])).Nodup
        rw [pairsOf, List.map_append]
        apply List.nodup_append.mpr
        refine ⟨hnd, List.nodup_singleton _, ?_⟩
        intro y hy hy2
        simp only [List.map_cons, List.map_nil, List.mem_singleton] at hy2
        subst hy2
        obtain ⟨q, hq, hqeq⟩ := List.mem_map.mp hy
        have hgq := hge q hq
        have hmemset : (q.title, q.page) ∈ tried_pairs_set tried :=
          mem_tried_pairs_set_of tried q hq hgq.1 hgq.2
        rw [hqeq] at hmemset
        rw [containsPair_iff.mpr hmemset] at huntried
        exact Bool.noConfusion huntried
      · intro p hp
        rcases List.mem_append.mp hp with hp1 | hp2
        · exact hge p hp1
        · simp only [List.mem_singleton] at hp2
          subst hp2
          exact ⟨hjt0, hstr2.2⟩
    · simp only [phase1_tool_node]
      rw [if_pos hname]
      exact ⟨hnd, hge, rfl⟩

lemma pairsOf_annotateLast (a : Int) : ∀ l, pairsOf (annotateLast a l) = pairsOf l
  | [] => rfl
  | [p] => rfl
  | p :: q :: rest => by
    show pairsOf (p :: annotateLast a (q :: rest)) = pairsOf (p :: q :: rest)
    have ih := pairsOf_annotateLast a (q :: rest)
    unfold pairsOf at ih ⊢
    simp only [List.map_cons] at ih ⊢
    rw [show (annotateLast a (q :: rest)).map (fun p => (p.title, p.page)) =
        (q.title, q.page) :: rest.map (fun p => (p.title, p.page)) from ih]

lemma goodEntries_annotateLast (a : Int) : ∀ l, goodEntries l →
    goodEntries (annotateLast a l)
  | [], h => h
  | [p], h => by
    intro x hx
    simp only [annotateLast, List.mem_singleton] at hx
    subst hx
    exact h p (List.mem_singleton_self p)
  | p :: q :: rest, h => by
    intro x hx
    show _
    rcases List.mem_cons.mp hx with rfl | hx2
    · exact h x (List.mem_cons_self x _)
    · exact goodEntries_annotateLast a (q :: rest)
        (fun y hy => h y (List.mem_cons_of_mem p hy)) x hx2

lemma tried_pairs_set_annotateLast (a : Int) : ∀ l,
    tried_pairs_set (annotateLast a l) = tried_pairs_set l
  | [] => rfl
  | [p] => rfl
  | p :: q :: rest => by
    show tried_pairs_set (p :: annotateLast a (q :: rest)) =
      tried_pairs_set (p :: q :: rest)
    have ih := tried_pairs_set_annotateLast a (q :: rest)
    unfold tried_pairs_set at ih ⊢
    simp only [List.filterMap_cons]
    rw [show (annotateLast a (q :: rest)).filterMap
        (fun p => if pyStripStr p.title = "" then none
          else some (pyStripStr p.title, p.page)) =
        (q :: rest).filterMap
        (fun p => if pyStripStr p.title = "" then none
          else some (pyStripStr p.title, p.page)) from ih]
    simp only [List.filterMap_cons]

lemma goodTool_congr (suggested : List String) (t1 t2 : List TriedPair)
    (tool : Option ToolCall) (hset : tried_pairs_set t1 = tried_pairs_set t2)
    (h : goodTool suggested t1 tool) : goodTool suggested t2 tool := by
  cases tool with
  | none => trivial
  | some tc =>
    intro hname
    rw [← hset]
    exact h hname

lemma score_batch_node_tried (b q : List Job) (t : List TriedPair) (r : Nat)
    (txt : String) :
    pairsOf (score_batch_node b q t r txt).phase1_tried_pairs = pairsOf t ∧
    tried_pairs_set (score_batch_node b q t r txt).phase1_tried_pairs =
      tried_pairs_set t ∧
    (goodEntries t → goodEntries (score_batch_node b q t r txt).phase1_tried_pairs) := by
  unfold score_batch_node
  split
  · exact ⟨rfl, rfl, fun h => h⟩
  · split
    · exact ⟨rfl, rfl, fun h => h⟩
    · exact ⟨pairsOf_annotateLast _ t, tried_pairs_set_annotateLast _ t,
        goodEntries_annotateLast _ t⟩

lemma stepP1_preserves_inv (o : Phase1Oracle) (node : GNode) (s : P1State)
    (ka ks : Nat) (hts : goodTitles s.suggested_titles) (hinv : P1Inv s) :
    (stepP1 o (node, s, ka, ks)).2.1.suggested_titles = s.suggested_titles ∧
    P1Inv (stepP1 o (node, s, ka, ks)).2.1 := by
  obtain ⟨hnd, hge, hgt⟩ := hinv
  cases node with
  | phase1_agent =>
    exact ⟨rfl, hnd, hge,
      phase1_agent_node_goodTool s.suggested_titles s.qualifying_jobs
        s.phase1_tried_pairs (o.agent ka) hts⟩
  | phase1_tools =>
    obtain ⟨h1, h2, h3⟩ := phase1_tool_node_tried o.scrape s.suggested_titles
      s.seen_urls s.phase1_tried_pairs s.phase1_last_tool_call hts hgt hnd hge
    refine ⟨rfl, h1, h2, ?_⟩
    show goodTool _ _ (phase1_tool_node o.scrape s.suggested_titles s.seen_urls
      s.phase1_tried_pairs s.phase1_last_tool_call).phase1_last_tool_call
    rw [h3]
    trivial
  | score_batch =>
    obtain ⟨h1, h2, h3⟩ := score_batch_node_tried s.current_batch s.qualifying_jobs
      s.phase1_tried_pairs s.phase1_rounds (o.score ks)
    refine ⟨rfl, ?_, h3 hge, ?_⟩
    · show (pairsOf (score_batch_node _ _ _ _ _).phase1_tried_pairs).Nodup
      rw [h1]; exact hnd
    · exact goodTool_congr s.suggested_titles s.phase1_tried_pairs _
        s.phase1_last_tool_call h2.symm hgt
  | enrichment => exact ⟨rfl, hnd, hge, hgt⟩

lemma runP1_preserves_inv (o : Phase1Oracle) :
    ∀ (n : Nat) (c : GNode × P1State × Nat × Nat),
      goodTitles c.2.1.suggested_titles → P1Inv c.2.1 →
      P1Inv (runP1 o n c).2.1 := by
  intro n
  induction n with
  | zero => intro c _ h; exact h
  | succ m ih =>
    intro c hts hinv
    obtain ⟨node, s, ka, ks⟩ := c
    rw [runP1]
    obtain ⟨heq, hinv2⟩ := stepP1_preserves_inv o node s ka ks hts hinv
    exact ih (stepP1 o (node, s, ka, ks)) (by rw [heq]; exact hts) hinv2

/-- Claim C2 amended: when `decide_titles` produced a non-empty title list
(whose entries are then necessarily stripped and non-empty), the Search
Attempt log of every state reachable in the discovery loop is free of
duplicate `(title, page)` pairs. -/
theorem C2_amended_no_duplicate_pairs (suggested : List String)
    (o : Phase1Oracle) (n : Nat) (hts : goodTitles suggested) :
    (pairsOf (runP1 o n (GNode.phase1_agent, initialP1 suggested,
      0, 0)).2.1.phase1_tried_pairs).Nodup := by
  have hinv0 : P1Inv (initialP1 suggested) := by
    refine ⟨List.nodup_nil, ?_, trivial⟩
    intro p hp
    exact absurd hp (List.not_mem_nil p)
  exact (runP1_preserves_inv o n (GNode.phase1_agent, initialP1 suggested, 0, 0)
    hts hinv0).1

theorem C2_counterexample :
    decide_titles_node "full_time" "[\" \"]" = [] ∧
    ¬ (pairsOf (runP1 dupOracle 5 (GNode.phase1_agent,
      initialP1 (decide_titles_node "full_time" "[\" \"]"),
      0, 0)).2.1.phase1_tried_pairs).Nodup := by
  exact ⟨by rfl, by decide⟩

theorem C2_witness :
    goodTitles ["A"] ∧
      (pairsOf (runP1 spinOracle 4 (GNode.phase1_agent, initialP1 ["A"],
        0, 0)).2.1.phase1_tried_pairs).Nodup :=
  ⟨by decide, C2_amended_no_duplicate_pairs ["A"] spinOracle 4 (by decide)⟩

/-! ## Claim C4 -/

lemma set_get?_self {α : Type} : ∀ (l : List α) (i : Nat) (a : α),
    l.get? i = some a → l.set i a = l
  | [], _, _, h => by simp at h
  | x :: xs, 0, a, h => by
    simp only [List.get?] at h
    cases h
    rfl
  | x :: xs, i + 1, a, h => by
    simp only [List.get?] at h
    simp only [List.set]
    rw [set_get?_self xs i a h]

lemma map_score_set (l : List Job) (i : Nat) (j j' : Job)
    (hget : l.get? i = some j) (hsc : j'.score = j.score) :
    (l.set i j').map Job.score = l.map Job.score := by
  rw [List.map_set]
  rw [hsc]
  apply set_get?_self
  rw [List.get?_map, hget]
  rfl

lemma map_score_of_pointwise (g : Job → Job) (h : ∀ j, (g j).score = j.score) :
    ∀ (jobs : List Job), ((jobs.map g).map Job.score) = jobs.map Job.score := by
  intro jobs
  induction jobs with
  | nil => rfl
  | cons j rest ih => simp [h, ih]

lemma projectApplyItems_score : ∀ (items : List (List (String × Json)))
    (batch : List Job),
    (projectApplyItems batch items).map Job.score = batch.map Job.score := by
  intro items
  induction items with
  | nil => intro batch; rfl
  | cons item rest ih =>
    intro batch
    unfold projectApplyItems
    repeat' split
    all_goals (try exact ih batch)
    all_goals (try rfl)
    rename_i j hget
    rw [ih]
    exact map_score_set _ _ j _ hget (by rfl)

lemma futureApplyItems_score : ∀ (items : List (List (String × Json)))
    (jobs : List Job),
    (futureApplyItems jobs items).2.map Job.score = jobs.map Job.score := by
  intro items
  induction items with
  | nil => intro jobs; rfl
  | cons item rest ih =>
    intro jobs
    unfold futureApplyItems
    repeat' split
    all_goals (try exact ih jobs)
    all_goals (try rfl)
    rename_i j hget
    rw [ih]
    exact map_score_set _ _ j _ hget (by rfl)

lemma relevanceApplyItems_score : ∀ (items : List (List (String × Json)))
    (batch : List Job),
    (relevanceApplyItems batch items).2.map Job.score = batch.map Job.score := by
  intro items
  induction items with
  | nil => intro batch; rfl
  | cons item rest ih =>
    intro batch
    unfold relevanceApplyItems
    repeat' split
    all_goals (try exact ih batch)
    all_goals (try rfl)
    rename_i j hget
    rw [ih]
    exact map_score_set _ _ j _ hget (by rfl)

lemma batchFold_score (bs : Nat) (f : Nat → List Job → List Job)
    (hf : ∀ k b, (f k b).map Job.score = b.map Job.score) :
    ∀ (fuel k : Nat) (jobs : List Job),
      (batchFold bs f fuel k jobs).map Job.score = jobs.map Job.score := by
  intro fuel
  induction fuel with
  | zero => intro k jobs; rfl
  | succ m ih =>
    intro k jobs
    unfold batchFold
    split
    · rfl
    · rw [List.map_append, hf, ih, ← List.map_append, List.take_append_drop]

lemma batchFoldE_score (bs : Nat) (f : Nat → List Job → Bool × List Job)
    (hf : ∀ k b, (f k b).2.map Job.score = b.map Job.score) :
    ∀ (fuel k : Nat) (jobs : List Job),
      (batchFoldE bs f fuel k jobs).2.map Job.score = jobs.map Job.score := by
  intro fuel
  induction fuel with
  | zero => intro k jobs; rfl
  | succ m ih =>
    intro k jobs
    unfold batchFoldE
    split
    · rfl
    · show (List.map Job.score (if (f k (jobs.take bs)).1 = true then
          (true, (f k (jobs.take bs)).2 ++ jobs.drop bs)
        else ((batchFoldE bs f m (k + 1) (jobs.drop bs)).1,
          (f k (jobs.take bs)).2 ++ (batchFoldE bs f m (k + 1) (jobs.drop bs)).2)).2) = _
      split
      · show ((f k (jobs.take bs)).2 ++ jobs.drop bs).map Job.score = _
        rw [List.map_append, hf, ← List.map_append, List.take_append_drop]
      · show ((f k (jobs.take bs)).2 ++
            (batchFoldE bs f m (k + 1) (jobs.drop bs)).2).map Job.score = _
        rw [List.map_append, hf, ih, ← List.map_append, List.take_append_drop]

lemma resumeBatch_score (text : String) (batch : List Job) :
    (resumeBatch text batch).map Job.score = batch.map Job.score := by
  unfold resumeBatch
  split
  · exact map_score_of_pointwise
      (fun j => {j with resume_suggestions := some "No suggestions generated."})
      (fun j => rfl) batch
  · show ((batch.enum).map _).map Job.score = _
    have henum : ∀ (n : Nat) (b : List Job)
        (g : Nat × Job → Job) (hg : ∀ p, (g p).score = p.2.score),
        (((List.enumFrom n b).map g).map Job.score) = b.map Job.score := by
      intro n b
      induction b generalizing n with
      | nil => intro g hg; rfl
      | cons j rest ih =>
        intro g hg
        simp only [List.enumFrom, List.map_cons, hg]
        rw [ih (n + 1) g hg]
    exact henum 0 batch _ (fun p => rfl)


lemma enumFrom_get? {α : Type} : ∀ (l : List α) (n i : Nat),
    (List.enumFrom n l).get? i = (l.get? i).map (fun a => (n + i, a)) := by
  intro l
  induction l with
  | nil => intro n i; simp [List.enumFrom]
  | cons x xs ih =>
    intro n i
    cases i with
    | zero => simp [List.enumFrom]
    | succ m =>
      simp only [List.enumFrom, List.get?]
      rw [ih (n + 1) m]
      cases xs.get? m <;> simp <;> omega

lemma scoredBatchOf_get? (batch : List Job) (text : String) (i : Nat) (j0 : Job)
    (hget : batch.get? i = some j0) :
    (scoredBatchOf batch text).get? i =
      some {j0 with score := some ((scoreLookup (scoreMapOf text) (i : Int)).getD 70)} := by
  unfold scoredBatchOf
  rw [List.get?_map]
  show ((List.enumFrom 0 batch).get? i).map _ = _
  rw [enumFrom_get? batch 0 i, hget]
  simp

lemma projectBatch_score (text : String) (batch : List Job) :
    (projectBatch text batch).map Job.score = batch.map Job.score := by
  unfold projectBatch
  split
  · rfl
  · exact projectApplyItems_score _ _

lemma relevanceBatch_score (text : String) (batch : List Job) :
    (relevanceBatch text batch).2.map Job.score = batch.map Job.score := by
  unfold relevanceBatch
  split
  · rfl
  · exact relevanceApplyItems_score _ _

/-- Claim C4, counterexample: the claim says a batch item whose per-item score
is missing in the scoring response defaults to 70.  But when the response
carries an item with an `idx` and no `score` key, `s.get("score", 0)` (line
516) supplies 0, the score map records the clamped entry `(0, 0)`, and
`score_map.get(i, 70)` (line 525) finds that entry: the job is scored 0, not
70.  Concretely, for the single-job batch and response `[{"idx": 0}]`, the
response item has no `score` key, yet the scored batch carries `some 0`
(≠ the claimed `some 70`); the job is still excluded from the qualifiers. -/
theorem C4_counterexample :
    dictGet [("idx", Json.num "0")] "score" = none ∧
    extract_json_array "[\x7b\"idx\": 0\x7d]" = [[("idx", Json.num "0")]] ∧
    (scoredBatchOf [{ title := "X" }] "[\x7b\"idx\": 0\x7d]").map Job.score
      = [some 0] ∧
    [some (0 : Int)] ≠ [some (70 : Int)] ∧
    (score_batch_node [{ title := "X" }] [] [] 0
      "[\x7b\"idx\": 0\x7d]").qualifying_jobs = [] :=
  ⟨rfl, rfl, by decide, by decide, by decide⟩

/-- Claim C4 (amended): (1) every job in the Qualifying Job Collection after a
scoring round has score ≥ 85 provided the incoming collection did; (2) a batch
item with no entry in the parsed score map (no response item bears its index,
or the item's score value is unparseable as an int) is scored 70 and excluded
from the appended qualifiers; (3) the appended qualifiers are exactly the
scored batch filtered at the threshold; (4-7) none of the enrichment nodes
changes any job's score; (8) but a response item carrying the job's index with
the `score` key absent yields score 0 (the inner `get("score", 0)` default),
not 70 — also below threshold, so the job is still excluded. -/
theorem C4_amended_scores_and_defaults :
    (∀ (batch qualifying : List Job) (tried : List TriedPair) (rounds : Nat)
        (text : String),
       (∀ j ∈ qualifying, scoreAtLeastThreshold j) →
       ∀ j ∈ (score_batch_node batch qualifying tried rounds text).qualifying_jobs,
         scoreAtLeastThreshold j) ∧
    (∀ (batch : List Job) (text : String) (i : Nat) (j0 : Job),
       batch.get? i = some j0 →
       scoreLookup (scoreMapOf text) (i : Int) = none →
       (scoredBatchOf batch text).get? i = some {j0 with score := some 70} ∧
       {j0 with score := some 70} ∉ (scoredBatchOf batch text).filter jobQualifiesB) ∧
    (∀ (batch qualifying : List Job) (tried : List TriedPair) (rounds : Nat)
        (text : String),
       batch ≠ [] →
       (score_batch_node batch qualifying tried rounds text).qualifying_jobs =
         qualifying ++ (scoredBatchOf batch text).filter jobQualifiesB) ∧
    (∀ (texts : Nat → String) (jobs : List Job),
       (resume_modifier_agent_node texts jobs).map Job.score = jobs.map Job.score) ∧
    (∀ (texts : Nat → String) (jobs : List Job),
       (project_proposer_node texts jobs).map Job.score = jobs.map Job.score) ∧
    (∀ (text : String) (jobs : List Job),
       (future_scores_node text jobs).2.map Job.score = jobs.map Job.score) ∧
    (∀ (texts : Nat → String) (jobs : List Job),
       (relevance_summary_node texts jobs).2.map Job.score = jobs.map Job.score) ∧
    (∀ (text : String) (s : List (String × Json)) (v : Json) (iz : Int)
        (batch : List Job) (i : Nat) (j0 : Job),
       pyStripStr text ≠ "" →
       extract_json_array text = [s] →
       pyGetIdx s = some v →
       pyInt v = some iz →
       dictGet s "score" = none →
       (i : Int) = iz →
       batch.get? i = some j0 →
       (scoredBatchOf batch text).get? i = some {j0 with score := some 0} ∧
       {j0 with score := some 0} ∉ (scoredBatchOf batch text).filter jobQualifiesB) := by
  refine ⟨?_, ?_, ?_, ?_, ?_, ?_, ?_, ?_⟩
  · intro batch qualifying tried rounds text hq j hj
    unfold score_batch_node at hj
    split at hj
    · exact hq j hj
    · replace hj : j ∈ qualifying ++ (scoredBatchOf batch text).filter jobQualifiesB := hj
      rcases List.mem_append.mp hj with h1 | h2
      · exact hq j h1
      · have hf := (List.mem_filter.mp h2).2
        unfold jobQualifiesB at hf
        cases hsc : j.score with
        | none => rw [hsc] at hf; exact Bool.noConfusion hf
        | some s =>
          rw [hsc] at hf
          exact ⟨s, hsc, of_decide_eq_true hf⟩
  · intro batch text i j0 hget hlook
    have h1 := scoredBatchOf_get? batch text i j0 hget
    rw [hlook] at h1
    refine ⟨h1, ?_⟩
    intro hmem
    have := (List.mem_filter.mp hmem).2
    exact Bool.noConfusion this
  · intro batch qualifying tried rounds text hne
    unfold score_batch_node
    rw [if_neg (by cases batch with
      | nil => exact absurd rfl hne
      | cons a l => simp)]
  · intro texts jobs
    exact batchFold_score _ _ (fun k b => resumeBatch_score (texts k) b) jobs.length 0 jobs
  · intro texts jobs
    unfold project_proposer_node
    show (batchFold BATCH_SIZE _ (jobs.map _).length 0 (jobs.map _)).map Job.score = _
    rw [batchFold_score _ _ (fun k b => projectBatch_score (texts k) b)]
    exact map_score_of_pointwise
      (fun j =>
        let v := j.project_suggestions.getD "No project suggestions generated."
        {j with project_suggestions := some v})
      (fun j => rfl) jobs
  · intro text jobs
    unfold future_scores_node
    split
    · show ((jobs.map _).map Job.score) = _
      exact map_score_of_pointwise
        (fun j =>
          let cur := j.score.getD 50
          let fs := j.future_score.getD (min 100 (cur + 10))
          { j with future_score := some fs,
                   improvement_potential := some (j.improvement_potential.getD (fs - cur)) })
        (fun j => rfl) jobs
    · rw [futureApplyItems_score]
      exact map_score_of_pointwise
        (fun j =>
          let cur := j.score.getD 50
          let fs := j.future_score.getD (min 100 (cur + 10))
          { j with future_score := some fs,
                   improvement_potential := some (j.improvement_potential.getD (fs - cur)) })
        (fun j => rfl) jobs
  · intro texts jobs
    exact batchFoldE_score _ _ (fun k b => relevanceBatch_score (texts k) b)
      jobs.length 0 jobs
  · intro text s v iz batch i j0 hne hext hidx hint hsc hiz hget
    have hmap : scoreMapOf text = [(iz, 0)] := by
      unfold scoreMapOf
      rw [if_neg hne, hext]
      simp only [List.foldl_cons, List.foldl_nil, hidx, hsc, hint]
      norm_num
    have hlook : scoreLookup (scoreMapOf text) (i : Int) = some 0 := by
      rw [hmap, hiz]
      simp [scoreLookup, List.find?]
    have h1 := scoredBatchOf_get? batch text i j0 hget
    rw [hlook] at h1
    refine ⟨h1, ?_⟩
    intro hmem
    have hq := (List.mem_filter.mp hmem).2
    have hfalse : jobQualifiesB {j0 with score := some (0 : Int)} = false := rfl
    rw [hfalse] at hq
    exact Bool.noConfusion hq

theorem C4_witness :
    scoreAtLeastThreshold { title := "X", score := some 90 } ∧
    (scoredBatchOf [{ title := "Y" }] "[\x7b\"idx\": 0\x7d]").get? 0
      = some { title := "Y", score := some 0 } :=
  ⟨C4_amended_scores_and_defaults.1 [{ title := "X" }] [] [] 0
      "[\x7b\"idx\": 0, \"score\": 90\x7d]"
      (fun j hj => absurd hj (List.not_mem_nil j))
      { title := "X", score := some 90 } (by decide),
   (C4_amended_scores_and_defaults.2.2.2.2.2.2.2
      "[\x7b\"idx\": 0\x7d]" [("idx", Json.num "0")] (Json.num "0") 0
      [{ title := "Y" }] 0 { title := "Y" }
      (by decide) rfl rfl rfl rfl (by decide) rfl).1⟩

end V3
